import Mathlib

/-!
# Verification of the MQTT client engine (src/docs/main.js)

Shallow embedding of the Paho-style MQTT v3.1/v3.1.1 client engine found in
`src/docs/main.js`: the wire codec (multi-byte integer, UTF-8, packet decode,
deframing) and the connection/session state machine (in-flight tables,
identifier allocation, QoS handshakes, CONNACK replay, teardown).

Conventions used throughout the embedding:
* JS `Uint8Array` buffers are `List Nat` (each element a byte value).
* JS strings are `List Nat` of UTF-16 code units (`charCodeAt` values).
* Reading past the end of a typed array yields `undefined` in JS; arithmetic
  on it yields `NaN`.  Where a claim never exercises such a read we model the
  read with `List.getD _ _ 0`; in `parseUTF8`, where NaN propagation is
  observable, missing bytes are modelled with `Option` (see there).
* Exceptions become `Except` errors; the engine's `try/catch` funnels them
  into the teardown routine exactly where the source does.
* Application callbacks are not modelled as functions but as observable
  events (`Event`) emitted by each handler, so that callback invocations and
  their order can be stated and proved.
-/

namespace Ador

/-- MQTT packet-type codes (MESSAGE_TYPE in the source): CONNECT=1, CONNACK=2,
PUBLISH=3, PUBACK=4, PUBREC=5, PUBREL=6, PUBCOMP=7, SUBSCRIBE=8, SUBACK=9,
UNSUBSCRIBE=10, UNSUBACK=11, PINGREQ=12, PINGRESP=13, DISCONNECT=14. -/
def MT_CONNACK : Nat := 2

/-- `Paho.MQTT.Message`: the application payload unit. -/
structure PMessage where
  payloadBytes : List Nat := []
  qos : Nat := 0
  destinationName : List Nat := []
  retained : Bool := false
  duplicate : Bool := false
deriving Repr, DecidableEq

/-- `WireMessage`: the internal protocol packet wrapper.  The source is a
duck-typed JS object; every optional property used anywhere in the engine
becomes an optional field here.  Callbacks attached to a wire message
(`onSuccess`, `onFailure`, `callback`, `timeOut`) are tracked as presence
flags; their invocations surface as `Event`s. -/
structure WireMsg where
  type : Nat
  messageIdentifier : Option Nat := none
  sessionPresent : Bool := false
  /-- CONNACK return code (a single byte in the source). -/
  returnCode : Option Nat := none
  /-- SUBACK granted-QoS vector (the source stores the byte subarray in the
  same `returnCode` property; it is a separate field here because the types
  differ). -/
  returnCodes : List Nat := []
  payloadMessage : Option PMessage := none
  pubRecReceived : Bool := false
  sequence : Option Nat := none
  topics : List (List Nat) := []
  requestedQos : List Nat := []
  hasTimeout : Bool := false
  hasOnSuccess : Bool := false
  hasOnFailure : Bool := false
  hasCallback : Bool := false
deriving Repr, DecidableEq

/-! ## Multi-byte integer (remaining length) -/

/-- `encodeMBI` body (src lines 548-562): a do-while loop emitting base-128
digits, continuation bit `0x80` on every byte that is followed by another,
capped at 4 bytes (`numBytes < 4`).  The fuel argument is that cap. -/
def encodeMBIAux : Nat → Nat → List Nat
  | _, 0 => []
  | number, fuel + 1 =>
    let digit := number % 128
    let number2 := number >>> 7
    if number2 > 0 then (digit ||| 0x80) :: encodeMBIAux number2 fuel
    else [digit]

/-- `encodeMBI` (src lines 548-562). -/
def encodeMBI (number : Nat) : List Nat := encodeMBIAux number 4

/-- The remaining-length decode loop of `decodeMessage` (src lines 456-468),
expressed on the byte list that follows the fixed-header byte.  Returns the
decoded value together with the number of bytes consumed; `none` models the
`pos == input.length` early return (buffer exhausted while the continuation
bit is still set), which the caller signals as "incomplete". -/
def decodeMBIList : List Nat → Nat → Nat → Option (Nat × Nat)
  | [], _, _ => none
  | digit :: rest, multiplier, remLength =>
    let remLength2 := remLength + (digit &&& 0x7F) * multiplier
    if digit &&& 0x80 ≠ 0 then
      match decodeMBIList rest (multiplier * 128) remLength2 with
      | none => none
      | some (v, c) => some (v, c + 1)
    else
      some (remLength2, 1)

/-- Specification-side multi-byte integer (spec §4.1: "little-endian-like
7-bit groups, base-128, continuation bit set on all but the final byte").
Written independently of the decoder so that claims about truncation can be
stated against the spec's notion of a complete length field. -/
def specMBI : List Nat → Option (Nat × Nat)
  | [] => none
  | d :: rest =>
    if d < 128 then some (d, 1)
    else
      match specMBI rest with
      | some (v, c) => some ((d - 128) + 128 * v, c + 1)
      | none => none

/-! ## UTF-8 -/

/-- `UTF8Length` (src lines 568-589): byte length of a string when encoded in
UTF-8, computed per UTF-16 code unit; a high surrogate consumes the following
unit (`i++`) and the pair counts 4 bytes. -/
def UTF8Length : List Nat → Nat
  | [] => 0
  | charCode :: rest =>
    if charCode > 0x7FF then
      if 0xD800 ≤ charCode ∧ charCode ≤ 0xDBFF then 4 + UTF8Length rest.tail
      else 3 + UTF8Length rest
    else if charCode > 0x7F then 2 + UTF8Length rest
    else 1 + UTF8Length rest
termination_by l => l.length
decreasing_by
  all_goals simp only [List.length_tail, List.length_cons]
  all_goals omega

/-- The byte group `stringToUTF8` writes for one code point (src lines
610-624): 1, 2, 3 or 4 bytes depending on magnitude. -/
def encodeCodePoint (charCode : Nat) : List Nat :=
  if charCode ≤ 0x7F then [charCode]
  else if charCode ≤ 0x7FF then
    [((charCode >>> 6) &&& 0x1F) ||| 0xC0,
     (charCode &&& 0x3F) ||| 0x80]
  else if charCode ≤ 0xFFFF then
    [((charCode >>> 12) &&& 0x0F) ||| 0xE0,
     ((charCode >>> 6) &&& 0x3F) ||| 0x80,
     (charCode &&& 0x3F) ||| 0x80]
  else
    [((charCode >>> 18) &&& 0x07) ||| 0xF0,
     ((charCode >>> 12) &&& 0x3F) ||| 0x80,
     ((charCode >>> 6) &&& 0x3F) ||| 0x80,
     (charCode &&& 0x3F) ||| 0x80]

/-- `stringToUTF8` (src lines 595-627), returning the bytes written.  A code
unit in the high-surrogate range consumes the next unit unconditionally
(`charCodeAt(++i)`); only when there is no next unit (`isNaN(lowCharCode)`)
does the source throw MALFORMED_UNICODE.  The combined code point
`((c-0xD800)<<10) + (low-0xDC00) + 0x10000` is always positive. -/
def stringToUTF8 : List Nat → Except Unit (List Nat)
  | [] => .ok []
  | charCode :: rest =>
    if 0xD800 ≤ charCode ∧ charCode ≤ 0xDBFF then
      match rest with
      | [] => .error ()
      | lowCharCode :: rest2 =>
        let combined : Int :=
          ((charCode : Int) - 0xD800) * 1024 + ((lowCharCode : Int) - 0xDC00) + 0x10000
        match stringToUTF8 rest2 with
        | .error e => .error e
        | .ok bs => .ok (encodeCodePoint combined.toNat ++ bs)
    else
      match stringToUTF8 rest with
      | .error e => .error e
      | .ok bs => .ok (encodeCodePoint charCode ++ bs)

/-- `String.fromCharCode` applies ToUint16 to its argument (so NaN becomes 0
and out-of-range values wrap modulo 2^16). -/
def fromCharCode (u : Int) : Nat := (u % 65536).toNat

/-- The output step at the bottom of the `parseUTF8` loop (src lines
666-672): a decoded value above 0xFFFF is re-expressed as a surrogate pair.
`none` is a NaN-valued `utf16` (a continuation byte was read past the
physical buffer); `NaN > 0xFFFF` is false and `fromCharCode NaN = 0`. -/
def emitUtf16 (utf16 : Option Int) : List Nat :=
  match utf16 with
  | none => [0]
  | some u =>
    if u > 0xFFFF then
      let u2 := u - 0x10000
      [fromCharCode (0xD800 + u2 / 1024), fromCharCode (0xDC00 + u2 % 1024)]
    else [fromCharCode u]

/-- Is this (possibly NaN) byte value a negative continuation byte?  The
source computes `input[pos++] - 128` and throws when the result is `< 0`;
`NaN < 0` is false, so a byte read past the physical buffer never triggers
this check. -/
def negContinuation (b : Option Int) : Bool :=
  match b with
  | some v => v < 0
  | none => false

/-- `parseUTF8` loop (src lines 629-675) on the byte list that starts at the
parse offset (the list keeps any bytes past the declared length, because a
multi-byte character that straddles the declared end reads them).  `rem` is
the number of bytes left in the declared region (`offset+length - pos`).
A lead byte read past the physical buffer is NaN in the source and falls
through every range test into the final malformed-UTF throw; a continuation
byte read past the buffer propagates NaN into `utf16` (see `emitUtf16`). -/
def parseUTF8Core (l : List Nat) (rem : Nat) (output : List Nat) :
    Except Unit (List Nat) :=
  if rem = 0 then .ok output
  else
    match (l[0]? : Option Nat) with
    | none => .error ()
    | some byte1 =>
      if byte1 < 128 then
        parseUTF8Core (l.drop 1) (rem - 1) (output ++ [byte1])
      else
        let byte2 : Option Int := (l[1]?).map (fun b : Nat => (b : Int) - 128)
        if negContinuation byte2 then .error ()
        else if byte1 < 0xE0 then
          let utf16 := byte2.map (fun v2 => 64 * ((byte1 : Int) - 0xC0) + v2)
          parseUTF8Core (l.drop 2) (rem - 2) (output ++ emitUtf16 utf16)
        else
          let byte3 : Option Int := (l[2]?).map (fun b : Nat => (b : Int) - 128)
          if negContinuation byte3 then .error ()
          else if byte1 < 0xF0 then
            let utf16 :=
              match byte2, byte3 with
              | some v2, some v3 =>
                some (4096 * ((byte1 : Int) - 0xE0) + 64 * v2 + v3)
              | _, _ => none
            parseUTF8Core (l.drop 3) (rem - 3) (output ++ emitUtf16 utf16)
          else
            let byte4 : Option Int := (l[3]?).map (fun b : Nat => (b : Int) - 128)
            if negContinuation byte4 then .error ()
            else if byte1 < 0xF8 then
              let utf16 :=
                match byte2, byte3, byte4 with
                | some v2, some v3, some v4 =>
                  some (262144 * ((byte1 : Int) - 0xF0) + 4096 * v2 + 64 * v3 + v4)
                | _, _, _ => none
              parseUTF8Core (l.drop 4) (rem - 4) (output ++ emitUtf16 utf16)
            else .error ()
termination_by rem
decreasing_by all_goals omega

/-- `parseUTF8 input offset length` (src lines 629-675). -/
def parseUTF8 (input : List Nat) (offset length : Nat) : Except Unit (List Nat) :=
  parseUTF8Core (input.drop offset) length []

/-- Spec-side well-formedness of a UTF-16 code-unit sequence ("code points in
0x0000-0x10FFFF with no unpaired surrogates"): every unit fits in 16 bits, a
high surrogate is immediately followed by a low surrogate (the pair consumed
together), and a low surrogate never appears on its own. -/
def validUTF16 : List Nat → Bool
  | [] => true
  | [c] => decide (c ≤ 0xFFFF ∧ ¬(0xD800 ≤ c ∧ c ≤ 0xDFFF))
  | c :: low :: rest2 =>
    if 0xD800 ≤ c ∧ c ≤ 0xDBFF then
      decide (0xDC00 ≤ low ∧ low ≤ 0xDFFF) && validUTF16 rest2
    else
      decide (c ≤ 0xFFFF ∧ ¬(0xDC00 ≤ c ∧ c ≤ 0xDFFF)) && validUTF16 (low :: rest2)

/-- The byte count exactly as the claim words it: 1 byte per code point
≤ 0x7F, 2 for ≤ 0x7FF, 3 for ≤ 0xFFFF, and 4 for each surrogate pair.  To be
compared with the source's `UTF8Length`. -/
def utf8LengthPerClaim : List Nat → Nat
  | [] => 0
  | c :: rest =>
    if 0xD800 ≤ c ∧ c ≤ 0xDBFF then 4 + utf8LengthPerClaim rest.tail
    else if c ≤ 0x7F then 1 + utf8LengthPerClaim rest
    else if c ≤ 0x7FF then 2 + utf8LengthPerClaim rest
    else 3 + utf8LengthPerClaim rest
termination_by l => l.length
decreasing_by
  all_goals simp only [List.length_tail, List.length_cons]
  all_goals omega

/-! ## Packet decode and deframing -/

/-- `readUint16` (src lines 540-542).  An out-of-bounds read is `undefined`
in the source; no verified claim evaluates one, and it is modelled as 0. -/
def readUint16 (buffer : List Nat) (offset : Nat) : Nat :=
  256 * buffer.getD offset 0 + buffer.getD (offset + 1) 0

/-- `input.subarray(a, b)` (clamped element range). -/
def sliceBytes (input : List Nat) (a b : Nat) : List Nat := (input.take b).drop a

/-- The per-type switch of `decodeMessage` (src lines 475-523), parsing the
variable header and payload between `pos` and `endPos`. -/
def parseBody (type messageInfo : Nat) (input : List Nat) (pos endPos : Nat) :
    Except Unit WireMsg :=
  if type = 2 then
    let connectAcknowledgeFlags := input.getD pos 0
    .ok { type := type,
          sessionPresent := connectAcknowledgeFlags &&& 0x01 ≠ 0,
          returnCode := some (input.getD (pos + 1) 0) }
  else if type = 3 then
    let qos := (messageInfo >>> 1) &&& 0x03
    let len := readUint16 input pos
    match parseUTF8 input (pos + 2) len with
    | .error e => .error e
    | .ok topicName =>
      let pos2 := pos + 2 + len
      let mid : Option Nat := if qos > 0 then some (readUint16 input pos2) else none
      let pos3 := if qos > 0 then pos2 + 2 else pos2
      .ok { type := type,
            messageIdentifier := mid,
            payloadMessage := some
              { payloadBytes := sliceBytes input pos3 endPos,
                retained := messageInfo &&& 0x01 = 0x01,
                duplicate := messageInfo &&& 0x08 = 0x08,
                qos := qos,
                destinationName := topicName } }
  else if type = 4 ∨ type = 5 ∨ type = 6 ∨ type = 7 ∨ type = 11 then
    .ok { type := type, messageIdentifier := some (readUint16 input pos) }
  else if type = 9 then
    .ok { type := type,
          messageIdentifier := some (readUint16 input pos),
          returnCodes := sliceBytes input (pos + 2) endPos }
  else .ok { type := type }

/-- `decodeMessage` (src lines 448-526): fixed header byte, remaining-length
loop, bounds check against the buffer, then the per-type body.  Truncation —
either the MBI loop running off the end or `endPos > input.length` — returns
`(null, startingPos)` without error.  (`pos ≥ input.length` also ends in the
`(null, startingPos)` return in the source, through NaN arithmetic.) -/
def decodeMessage (input : List Nat) (pos : Nat) :
    Except Unit (Option WireMsg × Nat) :=
  if pos < input.length then
    let first := input.getD pos 0
    let type := first >>> 4
    let messageInfo := first &&& 0x0F
    match decodeMBIList (input.drop (pos + 1)) 1 0 with
    | none => .ok (none, pos)
    | some (remLength, usedBytes) =>
      let bodyPos := pos + 1 + usedBytes
      let endPos := bodyPos + remLength
      if endPos > input.length then .ok (none, pos)
      else
        match parseBody type messageInfo input bodyPos endPos with
        | .error e => .error e
        | .ok w => .ok (some w, endPos)
  else .ok (none, pos)

/-- The `while` loop of `_deframeMessages` (src lines 1179-1188): repeatedly
decode one packet, stop (keeping the offset) on a null result.  A successful
decode consumes at least two bytes, so `buf.length + 1` fuel is enough for
the loop to reach its fixpoint; the fuel-exhausted arm mirrors the
break-with-offset result and is unreachable with that fuel. -/
def deframeLoopF : Nat → List Nat → Nat → Except Unit (List WireMsg × Nat)
  | 0, _, offset => .ok ([], offset)
  | fuel + 1, buf, offset =>
    if offset < buf.length then
      match decodeMessage buf offset with
      | .error _ => .error ()
      | .ok (none, _) => .ok ([], offset)
      | .ok (some w, off2) =>
        match deframeLoopF fuel buf off2 with
        | .error e => .error e
        | .ok (ws, fin) => .ok (w :: ws, fin)
    else .ok ([], offset)

/-- The deframe loop with adequate fuel. -/
def deframeLoop (buf : List Nat) (offset : Nat) : Except Unit (List WireMsg × Nat) :=
  deframeLoopF (buf.length + 1) buf offset

/-- `_deframeMessages` (src lines 1167-1197): prepend any retained receive
buffer, run the decode loop, and retain the unconsumed remainder (if any) as
the new receive buffer.  A decode exception is caught in the source and
funnelled into `_disconnected`; here it surfaces as `.error`. -/
def deframeMessages (receiveBuffer : Option (List Nat)) (data : List Nat) :
    Except Unit (List WireMsg × Option (List Nat)) :=
  let byteArray := receiveBuffer.getD [] ++ data
  match deframeLoop byteArray 0 with
  | .error e => .error e
  | .ok (messages, offset) =>
    .ok (messages,
         if offset < byteArray.length then some (byteArray.drop offset) else none)

/-! ## Client engine state -/

/-- Error kinds thrown by the engine (the ERROR table plus the plain `Error`s
thrown by `_requires_ack` and the public wrappers). -/
inductive ErrKind where
  | invalidState
  | tooManyMessages
  | invalidStoredData
  | internalError
  | argumentError
deriving Repr, DecidableEq

/-- Observable effects of the engine: transmissions on the socket, pinger and
timer operations, and application callback invocations.  `timerStart k`
records a `new Timeout` (k = 1 connect, 2 subscribe, 3 unsubscribe). -/
inductive Event where
  | transmit (w : WireMsg)
  | pingerReset
  | pingerCancel
  | connectTimeoutCancel
  | opTimeoutCancel
  | notifySent
  | timerStart (k : Nat)
  | socketOpenReq
  | connackSuccess
  | connectFailure (code : Nat)
  | connectionLost (code : Nat)
  | delivered (m : Option PMessage)
  | arrived (m : Option PMessage)
  | subSuccess (grantedQos : List Nat)
  | subFailure (code : Nat)
  | subFailureCodes (codes : List Nat)
  | unsubSuccess
deriving Repr, DecidableEq

/-- The `ClientImpl` instance state (src lines 749-805 and the prototype
fields): connection status, transport presence, the two in-flight tables,
the send queue and notify slot, the identifier counter and send sequence,
and the durable store (`localStorage` records under the `Sent:`/`Received:`
key prefixes, modelled as two association lists keyed by message identifier;
the JSON/hex serialisation of `store`/`restore` is kept as the stored
`WireMsg` itself, which is what `restore` reconstructs).  The relevant
`connectOptions` fields and the presence of the per-client callbacks are
inlined.  `notifySlot` models `_notify_msg_sent`: because the source keys
that object by the wire-message object (which stringifies to the same key
for every message), it holds at most one action — in this code base only the
disconnect teardown — so presence is a single Bool. -/
structure ClientState where
  connected : Bool := false
  socket : Bool := false
  hasConnectTimeout : Bool := false
  sentMessages : List (Nat × WireMsg) := []
  receivedMessages : List (Nat × WireMsg) := []
  msgQueue : List WireMsg := []
  notifySlot : Bool := false
  messageIdentifier : Nat := 1
  sequence : Nat := 0
  maxMessageIdentifier : Nat := 65536
  storeSent : List (Nat × WireMsg) := []
  storeReceived : List (Nat × WireMsg) := []
  cleanSession : Bool := true
  mqttVersion : Nat := 4
  mqttVersionExplicit : Bool := false
  /-- `connectOptions.uris` modelled by its length (the URI strings are
  irrelevant to every claim); `none` when no failover list was given. -/
  uris : Option Nat := none
  hostIndex : Nat := 0
  hasOnSuccessConnect : Bool := false
  hasOnFailureConnect : Bool := false
  onMessageDelivered : Bool := false
  onMessageArrived : Bool := false
  onConnectionLost : Bool := false
deriving Repr, DecidableEq

/-- Remove every entry under a key from a JS-object-as-association-list. -/
def removeKey (l : List (Nat × WireMsg)) (k : Nat) : List (Nat × WireMsg) :=
  l.filter (fun e => e.1 ≠ k)

/-- JS object property assignment `obj[k] = v`. -/
def upsert (l : List (Nat × WireMsg)) (k : Nat) (v : WireMsg) :
    List (Nat × WireMsg) :=
  (k, v) :: removeKey l k

/-- The keys of an association list. -/
def assocKeys (l : List (Nat × WireMsg)) : List Nat := l.map (·.1)

/-- `for (var key in obj)` over an integer-keyed JS object enumerates the
keys in ascending numeric order; `objectValues` is the value list in that
enumeration order (used by the CONNACK replay gather, src lines 1236-1240). -/
def keyLE (a b : Nat × WireMsg) : Prop := a.1 ≤ b.1

instance : DecidableRel keyLE := fun a b => Nat.decLe a.1 b.1

instance : IsTotal (Nat × WireMsg) keyLE := ⟨fun x y => Nat.le_total x.1 y.1⟩

instance : IsTrans (Nat × WireMsg) keyLE := ⟨fun _ _ _ => Nat.le_trans⟩

def objectValues (l : List (Nat × WireMsg)) : List WireMsg :=
  (List.insertionSort keyLE l).map (·.2)

/-- The comparator of the CONNACK replay sort (src line 1243:
`function(a,b) {return a.sequence - b.sequence;}`).  All replayed entries in
the verified claims carry defined, pairwise-distinct sequence numbers, for
which this numeric comparator sorts exactly ascending regardless of the JS
engine's sort algorithm; entries without a sequence (for which the JS
comparator yields NaN and the sort order is unspecified) are excluded by
hypothesis. -/
def seqLE (a b : WireMsg) : Prop := a.sequence.getD 0 ≤ b.sequence.getD 0

instance : DecidableRel seqLE := fun a b =>
  Nat.decLe (a.sequence.getD 0) (b.sequence.getD 0)

instance : IsTotal WireMsg seqLE := ⟨fun _ _ => Nat.le_total _ _⟩

instance : IsTrans WireMsg seqLE := ⟨fun _ _ _ => Nat.le_trans⟩

/-! ## Queue processing and scheduling -/

/-- `_process_queue` event loop body (src lines 1099-1115): each popped
message goes through `_socket_send` (socket.send then `sendPinger.reset()`),
then the notify slot is checked, run and deleted.  Returns the emitted
events and the final notify-slot state. -/
def processQueueAux : List WireMsg → Bool → List Event × Bool
  | [], slot => ([], slot)
  | m :: rest, slot =>
    let here := [Event.transmit m, Event.pingerReset] ++
      (if slot then [Event.notifySent] else [])
    let (evs, slotOut) := processQueueAux rest false
    (here ++ evs, slotOut)

/-- `_process_queue` (src lines 1099-1115). -/
def processQueue (s : ClientState) : ClientState × List Event :=
  let (evs, slotOut) := processQueueAux s.msgQueue s.notifySlot
  ({ s with msgQueue := [], notifySlot := slotOut }, evs)

/-- `_schedule_message` (src lines 1008-1014): push onto the queue; if
connected, drain the queue immediately. -/
def scheduleMessage (s : ClientState) (m : WireMsg) : ClientState × List Event :=
  let s2 := { s with msgQueue := s.msgQueue ++ [m] }
  if s2.connected then processQueue s2 else (s2, [])

/-! ## Persistence -/

/-- `ClientImpl.prototype.store` (src lines 1016-1055).  `direction = true`
is the `Sent:` prefix, `false` is `Received:`.  Only PUBLISH messages may be
stored (anything else throws INVALID_STORED_DATA); a sent PUBLISH without a
sequence number is assigned the next `_sequence` value, and that assignment
is visible on the wire-message object itself (returned here alongside the
updated state).  A PUBLISH without a payload message would throw a TypeError
in the source (reading `payloadMessage.payloadBytes`), modelled as an
internal error.  The hex/JSON serialisation is kept abstract: the stored
record is the message value itself. -/
def storeMessage (direction : Bool) (s : ClientState) (w : WireMsg) :
    Except ErrKind (ClientState × WireMsg) :=
  if w.type = 3 then
    match w.payloadMessage with
    | none => .error .internalError
    | some _ =>
      if direction then
        match w.sequence with
        | some _ =>
          .ok ({ s with storeSent := upsert s.storeSent (w.messageIdentifier.getD 0) w }, w)
        | none =>
          let w2 := { w with sequence := some (s.sequence + 1) }
          .ok ({ s with sequence := s.sequence + 1,
                        storeSent := upsert s.storeSent (w.messageIdentifier.getD 0) w2 }, w2)
      else
        .ok ({ s with storeReceived := upsert s.storeReceived (w.messageIdentifier.getD 0) w }, w)
  else .error .invalidStoredData

/-! ## Identifier allocation -/

/-- The probe loop of `_requires_ack` (src lines 1129-1131):
`while (sentMessages[id] !== undefined) id++`.  The loop body runs at most
once per occupied key at or above the start, so `keys.length + 1` fuel
reaches the fixpoint whenever the keys are duplicate-free. -/
def probeId : List Nat → Nat → Nat → Nat
  | _, c, 0 => c
  | keys, c, fuel + 1 => if c ∈ keys then probeId keys (c + 1) fuel else c

/-- `_requires_ack` (src lines 1122-1140): refuse when the outstanding count
exceeds `maxMessageIdentifier`; otherwise probe upward from the counter to
the first free identifier, register the message, persist it when it is a
PUBLISH, and reset the counter to 1 only when the allocated identifier
equals `maxMessageIdentifier`.  (If `store` throws, the source has already
inserted the entry; no verified claim evaluates that path, and the error is
returned directly.) -/
def requiresAck (s : ClientState) (w : WireMsg) :
    Except ErrKind (ClientState × WireMsg) :=
  let messageCount := s.sentMessages.length
  if messageCount > s.maxMessageIdentifier then .error .tooManyMessages
  else
    let id := probeId (assocKeys s.sentMessages) s.messageIdentifier (messageCount + 1)
    let w2 := { w with messageIdentifier := some id }
    let s2 := { s with sentMessages := upsert s.sentMessages id w2 }
    match (if w2.type = 3 then storeMessage true s2 w2 else .ok (s2, w2)) with
    | .error e => .error e
    | .ok (s3, w3) =>
      .ok ({ s3 with sentMessages := upsert s3.sentMessages id w3,
                     messageIdentifier := if id = s3.maxMessageIdentifier then 1 else id },
           w3)

/-! ## Teardown -/

/-- `_doConnect` (src lines 976-1000), reduced to its state effects: a fresh
socket, `connected = false`, fresh pingers (no events until a reset) and the
connect `Timeout` (which schedules immediately). -/
def doConnect (s : ClientState) : ClientState × List Event :=
  ({ s with connected := false, socket := true, hasConnectTimeout := true },
   [Event.socketOpenReq, Event.timerStart 1])

/-- The tail of `_disconnected` after the failover check (src lines
1451-1479): default the error code to OK, then either fire the
connection-lost callback, silently downgrade a speculative v4 connect to v3
and retry, or fire the connect-failure callback. -/
def afterFailover (s : ClientState) (errorCode : Option Nat) (evs1 : List Event) :
    ClientState × List Event :=
  let code := errorCode.getD 0
  if s.connected then
    ({ s with connected := false },
     evs1 ++ (if s.onConnectionLost then [Event.connectionLost code] else []))
  else if s.mqttVersion = 4 ∧ s.mqttVersionExplicit = false then
    let base := { s with mqttVersion := 3,
                         hostIndex := if s.uris.isSome then 0 else s.hostIndex }
    let (s2, evs2) := doConnect base
    (s2, evs1 ++ evs2)
  else
    (s, evs1 ++ (if s.hasOnFailureConnect then [Event.connectFailure code] else []))

/-- `_disconnected` (src lines 1424-1480): cancel both pingers and the
connect timeout, clear the send queue and notify slot, detach and close the
socket, then either fail over to the next URI or run `afterFailover`. -/
def disconnectedFn (s : ClientState) (errorCode : Option Nat) :
    ClientState × List Event :=
  let evs1 := [Event.pingerCancel, Event.pingerCancel] ++
    (if s.hasConnectTimeout then [Event.connectTimeoutCancel] else [])
  let s2 := { s with msgQueue := [], notifySlot := false }
  let s3 := if s2.socket then { s2 with socket := false } else s2
  match s3.uris with
  | some len =>
    if s3.hostIndex < len - 1 then
      let (s4, evs2) := doConnect { s3 with hostIndex := s3.hostIndex + 1 }
      (s4, evs1 ++ evs2)
    else afterFailover s3 errorCode evs1
  | none => afterFailover s3 errorCode evs1

/-! ## Engine operations -/

/-- The subset of `connectOptions` the engine consults. -/
structure ConnectOptions where
  cleanSession : Bool := true
  mqttVersion : Nat := 4
  mqttVersionExplicit : Bool := false
  uris : Option Nat := none
  hasOnSuccess : Bool := false
  hasOnFailure : Bool := false
deriving Repr, DecidableEq

/-- `ClientImpl.prototype.connect` (src lines 840-858): invalid-state when
already connected or when a socket already exists; otherwise store the
options and open the (first) transport. -/
def connectImpl (s : ClientState) (opts : ConnectOptions) :
    Except ErrKind Unit × ClientState × List Event :=
  if s.connected then (.error .invalidState, s, [])
  else if s.socket then (.error .invalidState, s, [])
  else
    let s2 := { s with cleanSession := opts.cleanSession,
                       mqttVersion := opts.mqttVersion,
                       mqttVersionExplicit := opts.mqttVersionExplicit,
                       uris := opts.uris,
                       hostIndex := if opts.uris.isSome then 0 else s.hostIndex,
                       hasOnSuccessConnect := opts.hasOnSuccess,
                       hasOnFailureConnect := opts.hasOnFailure }
    let (s3, evs) := doConnect s2
    (.ok (), s3, evs)

/-- Options for `subscribe`. -/
structure SubscribeOptions where
  qos : Option Nat := none
  hasOnSuccess : Bool := false
  hasOnFailure : Bool := false
  timeout : Option Nat := none
deriving Repr, DecidableEq

/-- Options for `unsubscribe`. -/
structure UnsubscribeOptions where
  hasOnSuccess : Bool := false
  hasOnFailure : Bool := false
  timeout : Option Nat := none
deriving Repr, DecidableEq

/-- JS truthiness of an optional numeric option (`if (options.timeout)`):
present and non-zero. -/
def optTruthy : Option Nat → Bool
  | some t => t ≠ 0
  | none => false

/-- `ClientImpl.prototype.subscribe` (src lines 860-891): invalid-state when
not connected; build the SUBSCRIBE wire message with callback wrappers, start
a `Timeout` when a (truthy) timeout was requested, register for a SUBACK and
schedule. -/
def subscribeImpl (s : ClientState) (filter : List Nat) (opts : SubscribeOptions) :
    Except ErrKind Unit × ClientState × List Event :=
  if s.connected = false then (.error .invalidState, s, [])
  else
    let w : WireMsg :=
      { type := 8, topics := [filter], requestedQos := [opts.qos.getD 0],
        hasOnSuccess := opts.hasOnSuccess, hasOnFailure := opts.hasOnFailure,
        hasTimeout := optTruthy opts.timeout }
    let evs := if optTruthy opts.timeout then [Event.timerStart 2] else []
    match requiresAck s w with
    | .error e => (.error e, s, evs)
    | .ok (s2, w2) =>
      let (s3, evs2) := scheduleMessage s2 w2
      (.ok (), s3, evs ++ evs2)

/-- `ClientImpl.prototype.unsubscribe` (src lines 894-916). -/
def unsubscribeImpl (s : ClientState) (filter : List Nat) (opts : UnsubscribeOptions) :
    Except ErrKind Unit × ClientState × List Event :=
  if s.connected = false then (.error .invalidState, s, [])
  else
    let w : WireMsg :=
      { type := 10, topics := [filter], hasCallback := opts.hasOnSuccess,
        hasTimeout := optTruthy opts.timeout }
    let evs := if optTruthy opts.timeout then [Event.timerStart 3] else []
    match requiresAck s w with
    | .error e => (.error e, s, evs)
    | .ok (s2, w2) =>
      let (s3, evs2) := scheduleMessage s2 w2
      (.ok (), s3, evs ++ evs2)

/-- `ClientImpl.prototype.send` (src lines 918-932): invalid-state when not
connected; QoS > 0 registers for an ack (and persists), QoS 0 invokes
`onMessageDelivered` immediately (the callback's undefined return value is
assigned into the notify map, where it is falsy, so the slot stays unset). -/
def sendImpl (s : ClientState) (message : PMessage) :
    Except ErrKind Unit × ClientState × List Event :=
  if s.connected = false then (.error .invalidState, s, [])
  else
    let w : WireMsg := { type := 3, payloadMessage := some message }
    if message.qos > 0 then
      match requiresAck s w with
      | .error e => (.error e, s, [])
      | .ok (s2, w2) =>
        let (s3, evs) := scheduleMessage s2 w2
        (.ok (), s3, evs)
    else
      let evs := if s.onMessageDelivered then [Event.delivered (some message)] else []
      let (s2, evs2) := scheduleMessage s w
      (.ok (), s2, evs ++ evs2)

/-- `ClientImpl.prototype.disconnect` (src lines 934-948): invalid-state when
no socket exists; otherwise register the teardown as the notify-on-sent
action and schedule a DISCONNECT. -/
def disconnectImpl (s : ClientState) :
    Except ErrKind Unit × ClientState × List Event :=
  if s.socket = false then (.error .invalidState, s, [])
  else
    let (s2, evs) := scheduleMessage { s with notifySlot := true } { type := 14 }
    (.ok (), s2, evs)

/-! ## Inbound packet handling -/

/-- `_receiveMessage` (src lines 1411-1415). -/
def receiveMessage (s : ClientState) (w : WireMsg) : List Event :=
  if s.onMessageArrived then [Event.arrived w.payloadMessage] else []

/-- `_receivePublish` (src lines 1384-1408), dispatching on the payload QoS.
A missing payload message or a QoS outside 0..2 throws in the source; the
exception is caught by `_handleMessage` and funnelled into
`_disconnected(INTERNAL_ERROR)` (code 5). -/
def receivePublish (s : ClientState) (w : WireMsg) : ClientState × List Event :=
  match w.payloadMessage with
  | none => disconnectedFn s (some 5)
  | some pm =>
    if pm.qos = 0 then (s, receiveMessage s w)
    else if pm.qos = 1 then
      let (s2, evs) := scheduleMessage s { type := 4, messageIdentifier := w.messageIdentifier }
      (s2, evs ++ receiveMessage s2 w)
    else if pm.qos = 2 then
      let s2 := { s with
        receivedMessages := upsert s.receivedMessages (w.messageIdentifier.getD 0) w }
      match storeMessage false s2 w with
      | .error _ => disconnectedFn s2 (some 5)
      | .ok (s3, _) =>
        scheduleMessage s3 { type := 5, messageIdentifier := w.messageIdentifier }
    else disconnectedFn s (some 5)

/-- The CONNACK case of `_handleMessage` (src lines 1207-1261): cancel the
connect timeout; purge both tables and their durable records when a clean
session was requested; on return code 0 mark connected, pin the URI index,
replay the sent-messages table in ascending sequence order (a PUBLISH whose
`pubRecReceived` is set goes out as a PUBREL with the same identifier),
fire the connect success callback, and flush the queue; on a non-zero code
tear down with a CONNACK error (code 6) and stop. -/
def replayAll : ClientState → List WireMsg → ClientState × List Event
  | s, [] => (s, [])
  | s, m :: rest =>
    let out : WireMsg :=
      if m.type = 3 ∧ m.pubRecReceived then
        { type := 6, messageIdentifier := m.messageIdentifier }
      else m
    let (s2, evs) := scheduleMessage s out
    let (s3, evs2) := replayAll s2 rest
    (s3, evs ++ evs2)

def handleConnack (s : ClientState) (w : WireMsg) : ClientState × List Event :=
  let evs0 := [Event.connectTimeoutCancel]
  let s1 :=
    if s.cleanSession then
      { s with sentMessages := [], storeSent := [],
               receivedMessages := [], storeReceived := [] }
    else s
  if w.returnCode = some 0 then
    let s2 := { s1 with connected := true,
                        hostIndex := match s1.uris with
                                     | some len => len
                                     | none => s1.hostIndex }
    let sequenced := List.insertionSort seqLE (objectValues s2.sentMessages)
    let (s3, evs1) := replayAll s2 sequenced
    let evs2 := if s3.hasOnSuccessConnect then [Event.connackSuccess] else []
    let (s4, evs3) := processQueue s3
    (s4, evs0 ++ evs1 ++ evs2 ++ evs3)
  else
    let (s2, evs) := disconnectedFn s1 (some 6)
    (s2, evs0 ++ evs)

/-- The PUBACK case of `_handleMessage` (src lines 1267-1276): only when the
identifier is still in `sentMessages` is anything done — remove it from the
table and the durable store and deliver the completion callback. -/
def handlePuback (s : ClientState) (w : WireMsg) : ClientState × List Event :=
  let mid := w.messageIdentifier.getD 0
  match List.lookup mid s.sentMessages with
  | some sent =>
    let s2 := { s with sentMessages := removeKey s.sentMessages mid,
                       storeSent := removeKey s.storeSent mid }
    (s2, if s2.onMessageDelivered then [Event.delivered sent.payloadMessage] else [])
  | none => (s, [])

/-- The PUBREC case of `_handleMessage` (src lines 1278-1287): mark
`pubRecReceived` (visible in the table — the source mutates the object in
place), persist the updated record, and schedule a PUBREL. -/
def handlePubrec (s : ClientState) (w : WireMsg) : ClientState × List Event :=
  let mid := w.messageIdentifier.getD 0
  match List.lookup mid s.sentMessages with
  | some sent =>
    let sent2 := { sent with pubRecReceived := true }
    let s2 := { s with sentMessages := upsert s.sentMessages mid sent2 }
    match storeMessage true s2 sent2 with
    | .error _ => disconnectedFn s2 (some 5)
    | .ok (s3, sent3) =>
      let s4 := { s3 with sentMessages := upsert s3.sentMessages mid sent3 }
      scheduleMessage s4 { type := 6, messageIdentifier := some mid }
  | none => (s, [])

/-- The PUBREL case of `_handleMessage` (src lines 1289-1300): look up the
received message; remove the durable record unconditionally; if the entry
was present, deliver it and remove it; always schedule a PUBCOMP. -/
def handlePubrel (s : ClientState) (w : WireMsg) : ClientState × List Event :=
  let mid := w.messageIdentifier.getD 0
  let received := List.lookup mid s.receivedMessages
  let s2 := { s with storeReceived := removeKey s.storeReceived mid }
  let (s3, evs1) :=
    match received with
    | some r =>
      ({ s2 with receivedMessages := removeKey s2.receivedMessages mid },
       receiveMessage s2 r)
    | none => (s2, [])
  let (s4, evs2) := scheduleMessage s3 { type := 7, messageIdentifier := some mid }
  (s4, evs1 ++ evs2)

/-- The PUBCOMP case of `_handleMessage` (src lines 1302-1308): the entry is
removed from the table and store without a presence guard, and
`onMessageDelivered(sentMessage.payloadMessage)` is invoked; when the entry
is absent and the callback is set, the source dereferences `undefined`, and
`_handleMessage`'s catch funnels the TypeError into
`_disconnected(INTERNAL_ERROR)` (code 5). -/
def handlePubcomp (s : ClientState) (w : WireMsg) : ClientState × List Event :=
  let mid := w.messageIdentifier.getD 0
  let sent := List.lookup mid s.sentMessages
  let s2 := { s with sentMessages := removeKey s.sentMessages mid,
                     storeSent := removeKey s.storeSent mid }
  if s2.onMessageDelivered then
    match sent with
    | some m => (s2, [Event.delivered m.payloadMessage])
    | none => disconnectedFn s2 (some 5)
  else (s2, [])

/-- The SUBACK case of `_handleMessage` (src lines 1310-1325): cancel the
per-call timeout, dispatch on the first granted-QoS byte (0x80 refuses the
subscription), and drop the pending entry. -/
def handleSuback (s : ClientState) (w : WireMsg) : ClientState × List Event :=
  let mid := w.messageIdentifier.getD 0
  match List.lookup mid s.sentMessages with
  | some sent =>
    let evs1 := if sent.hasTimeout then [Event.opTimeoutCancel] else []
    let evs2 :=
      if w.returnCodes.getD 0 0 = 0x80 then
        (if sent.hasOnFailure then [Event.subFailureCodes w.returnCodes] else [])
      else (if sent.hasOnSuccess then [Event.subSuccess w.returnCodes] else [])
    ({ s with sentMessages := removeKey s.sentMessages mid }, evs1 ++ evs2)
  | none => (s, [])

/-- The UNSUBACK case of `_handleMessage` (src lines 1327-1338). -/
def handleUnsuback (s : ClientState) (w : WireMsg) : ClientState × List Event :=
  let mid := w.messageIdentifier.getD 0
  match List.lookup mid s.sentMessages with
  | some sent =>
    let evs1 := if sent.hasTimeout then [Event.opTimeoutCancel] else []
    let evs2 := if sent.hasCallback then [Event.unsubSuccess] else []
    ({ s with sentMessages := removeKey s.sentMessages mid }, evs1 ++ evs2)
  | none => (s, [])

/-- `_handleMessage` (src lines 1199-1357).  PINGRESP resets the send
pinger; a DISCONNECT from the server and any unknown type tear down with
INVALID_MQTT_MESSAGE_TYPE (code 16). -/
def handleMessage (s : ClientState) (w : WireMsg) : ClientState × List Event :=
  if w.type = 2 then handleConnack s w
  else if w.type = 3 then receivePublish s w
  else if w.type = 4 then handlePuback s w
  else if w.type = 5 then handlePubrec s w
  else if w.type = 6 then handlePubrel s w
  else if w.type = 7 then handlePubcomp s w
  else if w.type = 9 then handleSuback s w
  else if w.type = 11 then handleUnsuback s w
  else if w.type = 13 then (s, [Event.pingerReset])
  else disconnectedFn s (some 16)

/-- Firing of a per-subscribe `Timeout` (src lines 724-739, registered at
881-886): the scheduled closure runs
`subscribeOptions.onFailure({errorCode: SUBSCRIBE_TIMEOUT, ...})` (code 2)
and nothing else — it does not touch `sentMessages`, the queue, or any other
engine state. -/
def fireSubscribeTimeout (s : ClientState) : ClientState × List Event :=
  (s, [Event.subFailure 2])

/-- Firing of a per-unsubscribe `Timeout` (src lines 724-739, registered at
905-910): the scheduled closure runs
`unsubscribeOptions.onFailure({errorCode: UNSUBSCRIBE_TIMEOUT, ...})`
(code 3) and nothing else — it does not touch `sentMessages`, the queue, or
any other engine state. -/
def fireUnsubscribeTimeout (s : ClientState) : ClientState × List Event :=
  (s, [Event.subFailure 3])

/-! ## Public wrappers (`Client`, src lines 1853-1911) -/

/-- `Client.subscribe` (src lines 1853-1869): after the shape/type
validation (vacuous for this typed options record), a truthy `timeout`
without an `onFailure` callback throws synchronously; then the qos value is
range-checked; only then is the engine's subscribe invoked. -/
def clientSubscribePublic (s : ClientState) (filter : List Nat)
    (opts : SubscribeOptions) : Except ErrKind Unit × ClientState × List Event :=
  if optTruthy opts.timeout ∧ opts.hasOnFailure = false then
    (.error .argumentError, s, [])
  else
    match opts.qos with
    | some q =>
      if q = 0 ∨ q = 1 ∨ q = 2 then subscribeImpl s filter opts
      else (.error .argumentError, s, [])
    | none => subscribeImpl s filter opts

/-- `Client.unsubscribe` (src lines 1899-1911). -/
def clientUnsubscribePublic (s : ClientState) (filter : List Nat)
    (opts : UnsubscribeOptions) : Except ErrKind Unit × ClientState × List Event :=
  if optTruthy opts.timeout ∧ opts.hasOnFailure = false then
    (.error .argumentError, s, [])
  else unsubscribeImpl s filter opts

/-! ## Concrete states used by closed statements -/

/-- A connected client with an empty in-flight table whose delivery and
connection-lost callbacks are set (the situation after a restart in which a
stale broker acknowledgment can arrive). -/
def c2State : ClientState :=
  { connected := true, socket := true, hasConnectTimeout := true,
    onMessageDelivered := true, onConnectionLost := true, cleanSession := false }

/-- A client configured with `maxMessageIdentifier = 2` holding identifier 1
in flight, about to allocate. -/
def c7State : ClientState :=
  { connected := true, socket := true, maxMessageIdentifier := 2,
    sentMessages := [(1, { type := 8 })] }

/-- An in-flight QoS-2 PUBLISH entry as `restore` reconstructs it: identifier
`mi`, persisted send sequence `sq`, `pubRecReceived` flag `pr`. -/
def c1Entry (mi sq : Nat) (pr : Bool) : WireMsg :=
  { type := 3, messageIdentifier := some mi, sequence := some sq,
    payloadMessage := some { qos := 2 }, pubRecReceived := pr }

/-- A client about to process CONNACK after a restart: no clean session,
entries A, B, C on identifiers 1, 2, 3 persisted with send sequence numbers
3, 1, 2 respectively; A (identifier 1) already has its PUBREC. -/
def c1State : ClientState :=
  { cleanSession := false, socket := true, hasConnectTimeout := true,
    hasOnSuccessConnect := true,
    sentMessages := [(1, c1Entry 1 3 true), (2, c1Entry 2 1 false),
                     (3, c1Entry 3 2 false)] }

/-! # Helper lemmas -/

theorem lookup_upsert_self (l : List (Nat × WireMsg)) (k : Nat) (v : WireMsg) :
    List.lookup k (upsert l k v) = some v := by
  simp [upsert, List.lookup]

theorem lookup_removeKey_self (l : List (Nat × WireMsg)) (k : Nat) :
    List.lookup k (removeKey l k) = none := by
  induction l with
  | nil => rfl
  | cons e rest ih =>
    simp only [removeKey, List.filter_cons] at ih ⊢
    by_cases h : e.1 = k
    · have hd : decide (e.1 ≠ k) = false := by simp [h]
      simp only [ne_eq, hd, if_false]
      exact ih
    · have hd : decide (e.1 ≠ k) = true := by simp [h]
      have hb : (k == e.1) = false := by
        simp only [beq_eq_false_iff_ne, ne_eq]
        omega
      simp only [ne_eq, hd, if_true, List.lookup, hb]
      exact ih

theorem lookup_upsert_ne (l : List (Nat × WireMsg)) (j k : Nat) (v : WireMsg)
    (h : j ≠ k) : List.lookup j (upsert l k v) = List.lookup j (removeKey l k) := by
  have : (j == k) = false := by simp [beq_iff_eq]; exact h
  simp [upsert, List.lookup, this]

/-- Restoring a record-update that does not change the record. -/
theorem state_eta_queue (s : ClientState) (h1 : s.msgQueue = [])
    (h2 : s.notifySlot = false) :
    ({ s with msgQueue := [], notifySlot := false } : ClientState) = s := by
  cases s
  simp_all

/-- On a connected client with an empty queue and no notify action,
`_schedule_message` transmits the message immediately and leaves the state
as it was. -/
theorem scheduleMessage_immediate (s : ClientState) (m : WireMsg)
    (hc : s.connected = true) (hq : s.msgQueue = []) (hn : s.notifySlot = false) :
    scheduleMessage s m = (s, [Event.transmit m, Event.pingerReset]) := by
  cases s
  simp only at hc hq hn
  subst hc hq hn
  simp [scheduleMessage, processQueue, processQueueAux]

theorem storeMessage_not_invalidState (direction : Bool) (s : ClientState)
    (w : WireMsg) : storeMessage direction s w ≠ .error .invalidState := by
  unfold storeMessage
  repeat' split
  all_goals simp

theorem requiresAck_not_invalidState (s : ClientState) (w : WireMsg) :
    requiresAck s w ≠ .error .invalidState := by
  unfold requiresAck
  dsimp only
  split
  · simp
  · split
    · rename_i e heq
      intro hcon
      injection hcon with h1
      subst h1
      split at heq
      · exact storeMessage_not_invalidState _ _ _ heq
      · simp at heq
    · simp

/-! # Claim theorems -/

/-- C2 (code_bug evaluation): the claim says an inbound PUBACK **or PUBCOMP**
whose identifier is absent from `sentMessages` is a silent no-op.  The PUBACK
case is (third conjunct): nothing happens even with the delivery callback
set.  The PUBCOMP case violates the claim: with `onMessageDelivered` set and
identifier 7 absent, the handler dereferences the missing entry
(`sentMessage.payloadMessage` on `undefined`), and the caught TypeError tears
the connection down with INTERNAL_ERROR (code 5) and fires
`onConnectionLost` (first conjunct).  Only without the delivery callback is
it a no-op (second conjunct). -/
theorem pubcomp_unknown_id_tears_down :
    handleMessage c2State { type := 7, messageIdentifier := some 7 } =
      ({ c2State with connected := false, socket := false },
       [Event.pingerCancel, Event.pingerCancel, Event.connectTimeoutCancel,
        Event.connectionLost 5]) ∧
    handleMessage { c2State with onMessageDelivered := false }
        { type := 7, messageIdentifier := some 7 } =
      ({ c2State with onMessageDelivered := false }, []) ∧
    handleMessage c2State { type := 4, messageIdentifier := some 7 } =
      (c2State, []) := by
  refine ⟨by decide, by decide, by decide⟩

/-- C10: calling the public `subscribe`/`unsubscribe` wrapper with a (truthy,
i.e. non-zero — `if (options.timeout)` is a JS truthiness test) timeout and
no `onFailure` callback throws synchronously: the error is returned before
the engine is entered, so no identifier is allocated, no in-flight entry is
added, no packet is enqueued, and the state is returned unchanged with no
observable events. -/
theorem public_timeout_needs_onFailure (s : ClientState) (filter : List Nat)
    (so : SubscribeOptions) (uo : UnsubscribeOptions)
    (hs : optTruthy so.timeout = true) (hsf : so.hasOnFailure = false)
    (hu : optTruthy uo.timeout = true) (huf : uo.hasOnFailure = false) :
    clientSubscribePublic s filter so = (.error .argumentError, s, []) ∧
    clientUnsubscribePublic s filter uo = (.error .argumentError, s, []) := by
  constructor
  · simp [clientSubscribePublic, hs, hsf]
  · simp [clientUnsubscribePublic, hu, huf]

/-- C10 witness: a concrete call with `timeout = 30` and no failure callback. -/
theorem public_timeout_needs_onFailure_witness :
    optTruthy (some 30) = true ∧
    clientSubscribePublic c2State [97] { timeout := some 30 } =
      (.error .argumentError, c2State, []) ∧
    clientUnsubscribePublic c2State [97] { timeout := some 30 } =
      (.error .argumentError, c2State, []) :=
  ⟨by decide,
   (public_timeout_needs_onFailure c2State [97] { timeout := some 30 }
     { timeout := some 30 } (by decide) (by decide) (by decide) (by decide)).1,
   (public_timeout_needs_onFailure c2State [97] { timeout := some 30 }
     { timeout := some 30 } (by decide) (by decide) (by decide) (by decide)).2⟩

/-- C8: at the engine (`ClientImpl`) level, `connect` throws invalid-state
when already connected or when a transport socket already exists;
`subscribe`, `unsubscribe` and `send` throw invalid-state exactly when the
client is not connected; `disconnect` throws invalid-state exactly when no
transport socket exists; and every such failing call returns the state
unchanged with nothing enqueued and no observable effect (the checks precede
every mutation). -/
theorem engine_invalid_state (s : ClientState) (opts : ConnectOptions)
    (filter : List Nat) (so : SubscribeOptions) (uo : UnsubscribeOptions)
    (m : PMessage) :
    ((s.connected = true ∨ s.socket = true) →
       connectImpl s opts = (.error .invalidState, s, [])) ∧
    (((subscribeImpl s filter so).1 = .error .invalidState) ↔ s.connected = false) ∧
    (s.connected = false →
       subscribeImpl s filter so = (.error .invalidState, s, [])) ∧
    (((unsubscribeImpl s filter uo).1 = .error .invalidState) ↔ s.connected = false) ∧
    (s.connected = false →
       unsubscribeImpl s filter uo = (.error .invalidState, s, [])) ∧
    (((sendImpl s m).1 = .error .invalidState) ↔ s.connected = false) ∧
    (s.connected = false → sendImpl s m = (.error .invalidState, s, [])) ∧
    (((disconnectImpl s).1 = .error .invalidState) ↔ s.socket = false) ∧
    (s.socket = false → disconnectImpl s = (.error .invalidState, s, [])) := by
  refine ⟨?_, ?_, ?_, ?_, ?_, ?_, ?_, ?_, ?_⟩
  · intro h
    unfold connectImpl
    rcases h with h | h
    · simp [h]
    · cases hc : s.connected
      · simp [hc, h]
      · simp [hc]
  · cases hc : s.connected
    · simp [subscribeImpl, hc]
    · simp only [subscribeImpl, hc, Bool.true_eq_false, if_false]
      constructor
      · intro h
        exfalso
        split at h
        · rename_i e heq
          simp only [Except.error.injEq] at h
          subst h
          exact requiresAck_not_invalidState _ _ heq
        · simp at h
      · intro h
        exact h.elim
  · intro hc
    simp [subscribeImpl, hc]
  · cases hc : s.connected
    · simp [unsubscribeImpl, hc]
    · simp only [unsubscribeImpl, hc, Bool.true_eq_false, if_false]
      constructor
      · intro h
        exfalso
        split at h
        · rename_i e heq
          simp only [Except.error.injEq] at h
          subst h
          exact requiresAck_not_invalidState _ _ heq
        · simp at h
      · intro h
        exact h.elim
  · intro hc
    simp [unsubscribeImpl, hc]
  · cases hc : s.connected
    · simp [sendImpl, hc]
    · simp only [sendImpl, hc, Bool.true_eq_false, if_false]
      constructor
      · intro h
        exfalso
        split at h
        · split at h
          · rename_i e heq
            simp only [Except.error.injEq] at h
            subst h
            exact requiresAck_not_invalidState _ _ heq
          · simp at h
        · simp at h
      · intro h
        exact h.elim
  · intro hc
    simp [sendImpl, hc]
  · cases hk : s.socket
    · simp [disconnectImpl, hk]
    · simp [disconnectImpl, hk]
  · intro hk
    simp [disconnectImpl, hk]

/-- C8 witness: a disconnected, socketless client refuses subscribe,
unsubscribe, send and disconnect with invalid-state and an unchanged state;
a connected client refuses connect. -/
theorem engine_invalid_state_witness :
    connectImpl c2State {} = (.error .invalidState, c2State, []) ∧
    subscribeImpl {} [97] {} = (.error .invalidState, {}, []) ∧
    unsubscribeImpl {} [97] {} = (.error .invalidState, {}, []) ∧
    sendImpl {} {} = (.error .invalidState, {}, []) ∧
    disconnectImpl {} = (.error .invalidState, {}, []) :=
  ⟨(engine_invalid_state c2State {} [97] {} {} {}).1 (Or.inl (by decide)),
   (engine_invalid_state {} {} [97] {} {} {}).2.2.1 (by decide),
   (engine_invalid_state {} {} [97] {} {} {}).2.2.2.2.1 (by decide),
   (engine_invalid_state {} {} [97] {} {} {}).2.2.2.2.2.2.1 (by decide),
   (engine_invalid_state {} {} [97] {} {} {}).2.2.2.2.2.2.2.2 (by decide)⟩

/-! ## Identifier-probe lemmas (C7) -/

theorem filter_ge_eq_of_not_mem (rest : List Nat) (c : Nat) (h : c ∉ rest) :
    rest.filter (fun k => decide (c + 1 ≤ k)) =
    rest.filter (fun k => decide (c ≤ k)) := by
  induction rest with
  | nil => rfl
  | cons a t ih =>
    have ha : a ≠ c := fun hac => h (by simp [hac])
    have ht : c ∉ t := fun hct => h (List.mem_cons_of_mem a hct)
    have : (decide (c + 1 ≤ a)) = (decide (c ≤ a)) := by
      rcases Nat.lt_or_ge a c with hlt | hge
      · simp [Nat.not_le.mpr hlt, Nat.not_le.mpr (by omega : a < c + 1)]
      · have : c + 1 ≤ a := by omega
        simp [hge, this]
    simp only [List.filter_cons, this, ih ht]

theorem countGe_succ (keys : List Nat) (c : Nat) (hnd : keys.Nodup)
    (hc : c ∈ keys) :
    (keys.filter (fun k => decide (c + 1 ≤ k))).length + 1 =
    (keys.filter (fun k => decide (c ≤ k))).length := by
  induction keys with
  | nil => cases hc
  | cons a rest ih =>
    rcases List.mem_cons.mp hc with h | h
    · subst h
      have hnotin : c ∉ rest := (List.nodup_cons.mp hnd).1
      have heq := filter_ge_eq_of_not_mem rest c hnotin
      have h1 : (decide (c + 1 ≤ c)) = false := by simp
      have h2 : (decide (c ≤ c)) = true := by simp
      simp only [List.filter_cons, h1, h2, heq]
      simp
    · have hnd2 : rest.Nodup := (List.nodup_cons.mp hnd).2
      have hih := ih hnd2 h
      rcases Nat.lt_or_ge a c with hlt | hge
      · have e1 : (decide (c + 1 ≤ a)) = false := by simp; omega
        have e2 : (decide (c ≤ a)) = false := by simp; omega
        simp only [List.filter_cons, e1, e2]
        simpa using hih
      · have hac : a ≠ c := by
          intro hacc
          subst hacc
          exact (List.nodup_cons.mp hnd).1 h
        have e1 : (decide (c + 1 ≤ a)) = true := by simp; omega
        have e2 : (decide (c ≤ a)) = true := by simp; omega
        simp only [List.filter_cons, e1, e2]
        simp only [if_true]
        simp only [List.length_cons]
        omega

/-- The probe loop, run with more fuel than there are occupied identifiers
at or above the start, lands on the least free identifier at or above the
start. -/
theorem probeId_spec (fuel : Nat) :
    ∀ (keys : List Nat) (c : Nat), keys.Nodup →
      (keys.filter (fun k => decide (c ≤ k))).length < fuel →
      probeId keys c fuel ∉ keys ∧ c ≤ probeId keys c fuel ∧
      probeId keys c fuel ≤ c + (keys.filter (fun k => decide (c ≤ k))).length ∧
      (∀ x, c ≤ x → x < probeId keys c fuel → x ∈ keys) := by
  induction fuel with
  | zero => intro keys c _ h; omega
  | succ fuel ih =>
    intro keys c hnd hlt
    by_cases hc : c ∈ keys
    · have hcount := countGe_succ keys c hnd hc
      have hrec := ih keys (c + 1) hnd (by omega)
      simp only [probeId]
      rw [if_pos hc]
      obtain ⟨h1, h2, h3, h4⟩ := hrec
      refine ⟨h1, by omega, by omega, ?_⟩
      intro x hx1 hx2
      rcases Nat.eq_or_lt_of_le hx1 with heq | hlt2
      · subst heq; exact hc
      · exact h4 x hlt2 hx2
    · simp only [probeId]
      rw [if_neg hc]
      exact ⟨hc, Nat.le_refl c, by omega, fun x hx1 hx2 => absurd hx2 (by omega)⟩

/-- Shape of a successful `_requires_ack`: the allocated identifier is the
probe result, the registered entry is found under it, and the counter is
reset to 1 exactly when the allocation hit `maxMessageIdentifier`. -/
theorem requiresAck_ok_shape (s : ClientState) (w : WireMsg)
    (hcnt : ¬ s.sentMessages.length > s.maxMessageIdentifier)
    (hP : w.type = 3 → w.payloadMessage.isSome = true) :
    ∃ s2 w2, requiresAck s w = .ok (s2, w2) ∧
      w2.messageIdentifier =
        some (probeId (assocKeys s.sentMessages) s.messageIdentifier
          (s.sentMessages.length + 1)) ∧
      List.lookup (probeId (assocKeys s.sentMessages) s.messageIdentifier
          (s.sentMessages.length + 1)) s2.sentMessages = some w2 ∧
      s2.messageIdentifier =
        (if probeId (assocKeys s.sentMessages) s.messageIdentifier
            (s.sentMessages.length + 1) = s.maxMessageIdentifier then 1
         else probeId (assocKeys s.sentMessages) s.messageIdentifier
            (s.sentMessages.length + 1)) ∧
      s2.connected = s.connected ∧ s2.msgQueue = s.msgQueue ∧
      s2.notifySlot = s.notifySlot ∧ s2.maxMessageIdentifier = s.maxMessageIdentifier ∧
      w2.type = w.type ∧ w2.hasTimeout = w.hasTimeout ∧
      w2.hasOnSuccess = w.hasOnSuccess ∧ w2.hasOnFailure = w.hasOnFailure ∧
      w2.hasCallback = w.hasCallback ∧ w2.payloadMessage = w.payloadMessage := by
  by_cases ht : w.type = 3
  · have hps : w.payloadMessage.isSome = true := hP ht
    rcases hpm : w.payloadMessage with _ | pm
    · rw [hpm] at hps; simp at hps
    · rcases hsq : w.sequence with _ | q
      · simp only [requiresAck, storeMessage, if_neg hcnt, ht, hpm, hsq,
          reduceIte]
        refine ⟨_, _, rfl, rfl, ?_, rfl, rfl, rfl, rfl, rfl, rfl, rfl, rfl, rfl,
          rfl, rfl⟩
        exact lookup_upsert_self _ _ _
      · simp only [requiresAck, storeMessage, if_neg hcnt, ht, hpm, hsq,
          reduceIte]
        refine ⟨_, _, rfl, rfl, ?_, rfl, rfl, rfl, rfl, rfl, rfl, rfl, rfl, rfl,
          rfl, rfl⟩
        exact lookup_upsert_self _ _ _
  · simp only [requiresAck, if_neg hcnt, if_neg ht]
    refine ⟨_, _, rfl, rfl, ?_, rfl, rfl, rfl, rfl, rfl, rfl, rfl, rfl, rfl,
      rfl, rfl⟩
    exact lookup_upsert_self _ _ _

/-- C7 counterexample: the claim restricts every allocated identifier to
`[1, maxMessageIdentifier)`, but with `maxMessageIdentifier = 2` and
identifier 1 outstanding the allocator assigns identifier 2 — equal to
`maxMessageIdentifier`, outside the half-open range (the probe loop does not
wrap before allocating; the wrap to 1 happens only afterwards). -/
theorem requiresAck_exceeds_claimed_range :
    (requiresAck c7State { type := 8 }).map (fun p => p.2.messageIdentifier) =
      .ok (some 2) ∧
    c7State.maxMessageIdentifier = 2 ∧ ¬ (2 < c7State.maxMessageIdentifier) := by
  refine ⟨rfl, rfl, by decide⟩

/-- C7 (amended): allocation fails (with the too-many-messages error) exactly
when the number of outstanding entries exceeds `maxMessageIdentifier`;
otherwise the allocated identifier is the smallest identifier not currently
in `sentMessages` that is ≥ the probe counter — hence ≥ 1, never an existing
key, and at most `counter + |sentMessages|` (but **not** necessarily below
`maxMessageIdentifier`: the counter is reset to 1 only after an allocation
that equals it). -/
theorem requiresAck_amended (s : ClientState) (w : WireMsg)
    (hnd : (assocKeys s.sentMessages).Nodup)
    (hc1 : 1 ≤ s.messageIdentifier)
    (hP : w.type = 3 → w.payloadMessage.isSome = true) :
    (s.sentMessages.length > s.maxMessageIdentifier ↔
       requiresAck s w = .error .tooManyMessages) ∧
    (s.sentMessages.length ≤ s.maxMessageIdentifier →
      ∃ s2 w2 id,
        requiresAck s w = .ok (s2, w2) ∧
        w2.messageIdentifier = some id ∧
        1 ≤ id ∧
        id ∉ assocKeys s.sentMessages ∧
        s.messageIdentifier ≤ id ∧
        id ≤ s.messageIdentifier + s.sentMessages.length ∧
        (∀ x, s.messageIdentifier ≤ x → x < id → x ∈ assocKeys s.sentMessages) ∧
        List.lookup id s2.sentMessages = some w2 ∧
        s2.messageIdentifier = (if id = s.maxMessageIdentifier then 1 else id)) := by
  by_cases hcnt : s.sentMessages.length > s.maxMessageIdentifier
  · refine ⟨⟨fun _ => ?_, fun _ => hcnt⟩, fun h => absurd h (by omega)⟩
    unfold requiresAck
    rw [if_pos hcnt]
  · obtain ⟨s2, w2, hok, hmid, hlook, hctr, -, -, -, -, -, -, -, -, -, -⟩ :=
      requiresAck_ok_shape s w hcnt hP
    have hflt : ((assocKeys s.sentMessages).filter
        (fun k => decide (s.messageIdentifier ≤ k))).length <
        s.sentMessages.length + 1 := by
      have h1 := List.length_filter_le
        (fun k => decide (s.messageIdentifier ≤ k)) (assocKeys s.sentMessages)
      have h2 : (assocKeys s.sentMessages).length = s.sentMessages.length := by
        simp [assocKeys]
      omega
    obtain ⟨hp1, hp2, hp3, hp4⟩ := probeId_spec (s.sentMessages.length + 1)
      (assocKeys s.sentMessages) s.messageIdentifier hnd hflt
    constructor
    · constructor
      · intro h; exact absurd h hcnt
      · intro h
        rw [hok] at h
        exact absurd h (by simp)
    · intro _
      refine ⟨s2, w2, _, hok, hmid, by omega, hp1, hp2, ?_, hp4, hlook, hctr⟩
      have h2 : (assocKeys s.sentMessages).length = s.sentMessages.length := by
        simp [assocKeys]
      omega

/-- C7 witness: with `maxMessageIdentifier = 2` and one outstanding entry
(the hypotheses of the amended theorem hold concretely), allocation does not
fail. -/
theorem requiresAck_amended_witness :
    (assocKeys c7State.sentMessages).Nodup ∧ 1 ≤ c7State.messageIdentifier ∧
    requiresAck c7State { type := 8 } ≠ .error .tooManyMessages := by
  refine ⟨by decide, by decide, ?_⟩
  intro hcon
  have h := ((requiresAck_amended c7State { type := 8 } (by decide) (by decide)
    (by decide)).1).mpr hcon
  simp [c7State] at h

/-- C9: calling subscribe — and likewise unsubscribe — with a timeout on a
connected client registers a pending entry; when the per-call timeout fires
it only invokes the failure callback — the engine state, in particular the
pending `sentMessages` entry, is untouched — and a SUBACK (respectively
UNSUBACK) arriving afterwards is processed normally: the success callback is
also invoked and only then is the entry removed.  Both callbacks are
therefore observed by the caller, in either flow. -/
theorem sub_timeout_then_suback (s : ClientState) (filter : List Nat) (t : Nat)
    (h1 : s.connected = true) (h2 : s.msgQueue = []) (h3 : s.notifySlot = false)
    (h4 : (assocKeys s.sentMessages).Nodup)
    (h5 : s.sentMessages.length ≤ s.maxMessageIdentifier)
    (ht : t ≠ 0) :
    (∃ id entry,
      (subscribeImpl s filter
        { timeout := some t, hasOnFailure := true, hasOnSuccess := true }).1 =
          .ok () ∧
      (List.lookup id (subscribeImpl s filter
         { timeout := some t, hasOnFailure := true, hasOnSuccess := true }).2.1.sentMessages
           = some entry) ∧
      entry.hasTimeout = true ∧
      (∀ s1, fireSubscribeTimeout s1 = (s1, [Event.subFailure 2])) ∧
      (handleMessage (subscribeImpl s filter
         { timeout := some t, hasOnFailure := true, hasOnSuccess := true }).2.1
         { type := 9, messageIdentifier := some id, returnCodes := [0] }).2 =
        [Event.opTimeoutCancel, Event.subSuccess [0]] ∧
      List.lookup id (handleMessage (subscribeImpl s filter
         { timeout := some t, hasOnFailure := true, hasOnSuccess := true }).2.1
         { type := 9, messageIdentifier := some id, returnCodes := [0] }).1.sentMessages
        = none) ∧
    (∃ id entry,
      (unsubscribeImpl s filter
        { timeout := some t, hasOnFailure := true, hasOnSuccess := true }).1 =
          .ok () ∧
      (List.lookup id (unsubscribeImpl s filter
         { timeout := some t, hasOnFailure := true, hasOnSuccess := true }).2.1.sentMessages
           = some entry) ∧
      entry.hasTimeout = true ∧
      (∀ s1, fireUnsubscribeTimeout s1 = (s1, [Event.subFailure 3])) ∧
      (handleMessage (unsubscribeImpl s filter
         { timeout := some t, hasOnFailure := true, hasOnSuccess := true }).2.1
         { type := 11, messageIdentifier := some id }).2 =
        [Event.opTimeoutCancel, Event.unsubSuccess] ∧
      List.lookup id (handleMessage (unsubscribeImpl s filter
         { timeout := some t, hasOnFailure := true, hasOnSuccess := true }).2.1
         { type := 11, messageIdentifier := some id }).1.sentMessages
        = none) := by
  have hot : optTruthy (some t) = true := by simp [optTruthy, ht]
  have hcnt : ¬ s.sentMessages.length > s.maxMessageIdentifier := by omega
  constructor
  · obtain ⟨s2, w2, hok, hmid, hlook, hctr, hconn, hq, hn, hmax, hty, htw, hsw,
      hfw, hcw, hpw⟩ :=
      requiresAck_ok_shape s
        { type := 8, topics := [filter], requestedQos := [0], hasOnSuccess := true,
          hasOnFailure := true, hasTimeout := optTruthy (some t) } hcnt
        (by intro h; simp at h)
    rw [hot] at hok
    have htw2 : w2.hasTimeout = true := (htw.trans rfl).trans hot
    have hsw2 : w2.hasOnSuccess = true := hsw.trans rfl
    have hsub : subscribeImpl s filter
        { timeout := some t, hasOnFailure := true, hasOnSuccess := true } =
        (.ok (), s2, [Event.timerStart 2] ++ [Event.transmit w2, Event.pingerReset]) := by
      simp only [subscribeImpl, h1, Bool.true_eq_false, if_false, hot, if_true,
        Option.getD_none]
      rw [hok]
      dsimp only
      rw [scheduleMessage_immediate s2 w2 (by rw [hconn, h1]) (by rw [hq, h2])
        (by rw [hn, h3])]
    refine ⟨probeId (assocKeys s.sentMessages) s.messageIdentifier
      (s.sentMessages.length + 1), w2, ?_, ?_, ?_, fun _ => rfl, ?_, ?_⟩
    · rw [hsub]
    · rw [hsub]
      exact hlook
    · exact htw2
    · rw [hsub]
      simp only [handleMessage, handleSuback, Option.getD_some]
      norm_num
      rw [hlook]
      simp [htw2, hsw2]
    · rw [hsub]
      simp only [handleMessage, handleSuback, Option.getD_some]
      norm_num
      rw [hlook]
      simp only [removeKey]
      intro a b hab
      have hmem := (List.mem_filter.mp hab).2
      simp only [ne_eq, decide_eq_true_eq] at hmem
      exact fun hkeq => hmem hkeq.symm
  · obtain ⟨s2, w2, hok, hmid, hlook, hctr, hconn, hq, hn, hmax, hty, htw, hsw,
      hfw, hcw, hpw⟩ :=
      requiresAck_ok_shape s
        { type := 10, topics := [filter], hasCallback := true,
          hasTimeout := optTruthy (some t) } hcnt
        (by intro h; simp at h)
    rw [hot] at hok
    have htw2 : w2.hasTimeout = true := (htw.trans rfl).trans hot
    have hcw2 : w2.hasCallback = true := hcw.trans rfl
    have hsub : unsubscribeImpl s filter
        { timeout := some t, hasOnFailure := true, hasOnSuccess := true } =
        (.ok (), s2, [Event.timerStart 3] ++ [Event.transmit w2, Event.pingerReset]) := by
      simp only [unsubscribeImpl, h1, Bool.true_eq_false, if_false, hot, if_true]
      rw [hok]
      dsimp only
      rw [scheduleMessage_immediate s2 w2 (by rw [hconn, h1]) (by rw [hq, h2])
        (by rw [hn, h3])]
    refine ⟨probeId (assocKeys s.sentMessages) s.messageIdentifier
      (s.sentMessages.length + 1), w2, ?_, ?_, ?_, fun _ => rfl, ?_, ?_⟩
    · rw [hsub]
    · rw [hsub]
      exact hlook
    · exact htw2
    · rw [hsub]
      simp only [handleMessage, handleUnsuback, Option.getD_some]
      norm_num
      rw [hlook]
      simp [htw2, hcw2]
    · rw [hsub]
      simp only [handleMessage, handleUnsuback, Option.getD_some]
      norm_num
      rw [hlook]
      simp only [removeKey]
      intro a b hab
      have hmem := (List.mem_filter.mp hab).2
      simp only [ne_eq, decide_eq_true_eq] at hmem
      exact fun hkeq => hmem hkeq.symm

/-- C9 witness: a fresh connected client, subscribe (and, separately,
unsubscribe) with a 5-second timeout and both callbacks; both calls succeed
(and the theorem's hypotheses all hold at this input). -/
theorem sub_timeout_then_suback_witness :
    ({ connected := true, socket := true } : ClientState).connected = true ∧
    ({ connected := true, socket := true } : ClientState).msgQueue = [] ∧
    (assocKeys ({ connected := true, socket := true } : ClientState).sentMessages).Nodup ∧
    (5 : Nat) ≠ 0 ∧
    (subscribeImpl { connected := true, socket := true } [97]
      { timeout := some 5, hasOnFailure := true, hasOnSuccess := true }).1 = .ok () ∧
    (unsubscribeImpl { connected := true, socket := true } [97]
      { timeout := some 5, hasOnFailure := true, hasOnSuccess := true }).1 = .ok () := by
  refine ⟨rfl, rfl, by decide, by decide, ?_, ?_⟩
  · obtain ⟨id, entry, hok, -, -, -, -, -⟩ :=
      (sub_timeout_then_suback { connected := true, socket := true } [97] 5 rfl rfl
        rfl (by decide) (by decide) (by decide)).1
    exact hok
  · obtain ⟨id, entry, hok, -, -, -, -, -⟩ :=
      (sub_timeout_then_suback { connected := true, socket := true } [97] 5 rfl rfl
        rfl (by decide) (by decide) (by decide)).2
    exact hok

/-- C3: an inbound QoS-2 PUBLISH with identifier `mid` is stored in
`receivedMessages` and the durable store, answered with PUBREC(mid), and not
delivered to `onMessageArrived`; the first PUBREL(mid) delivers the message
exactly once, removes the entry from the table and the store, and answers
PUBCOMP(mid); a second PUBREL(mid) still answers PUBCOMP(mid) but delivers
nothing. -/
theorem qos2_inbound_exactly_once (s : ClientState) (pm : PMessage) (mid : Nat)
    (h1 : s.connected = true) (h2 : s.msgQueue = []) (h3 : s.notifySlot = false)
    (h4 : s.onMessageArrived = true) (hq : pm.qos = 2) :
    let w : WireMsg :=
      { type := 3, messageIdentifier := some mid, payloadMessage := some pm }
    let r1 := handleMessage s w
    let r2 := handleMessage r1.1 { type := 6, messageIdentifier := some mid }
    let r3 := handleMessage r2.1 { type := 6, messageIdentifier := some mid }
    r1.2 = [Event.transmit { type := 5, messageIdentifier := some mid },
            Event.pingerReset] ∧
    (∀ msg, Event.arrived msg ∉ r1.2) ∧
    List.lookup mid r1.1.receivedMessages = some w ∧
    List.lookup mid r1.1.storeReceived = some w ∧
    r2.2 = [Event.arrived (some pm),
            Event.transmit { type := 7, messageIdentifier := some mid },
            Event.pingerReset] ∧
    List.lookup mid r2.1.receivedMessages = none ∧
    List.lookup mid r2.1.storeReceived = none ∧
    r3.2 = [Event.transmit { type := 7, messageIdentifier := some mid },
            Event.pingerReset] := by
  intro w r1 r2 r3
  have hr1 : handleMessage s w =
      ({ s with receivedMessages := upsert s.receivedMessages mid w,
                storeReceived := upsert s.storeReceived mid w },
       [Event.transmit { type := 5, messageIdentifier := some mid },
        Event.pingerReset]) := by
    simp only [handleMessage, w, receivePublish, storeMessage, hq,
      Option.getD_some]
    norm_num
    rw [scheduleMessage_immediate _ _ (by exact h1) (by exact h2) (by exact h3)]
    try rfl
    try exact ⟨rfl, rfl⟩
  have hr2 : handleMessage (handleMessage s w).1
      { type := 6, messageIdentifier := some mid } =
      ({ s with receivedMessages := removeKey (upsert s.receivedMessages mid w) mid,
                storeReceived := removeKey (upsert s.storeReceived mid w) mid },
       [Event.arrived (some pm),
        Event.transmit { type := 7, messageIdentifier := some mid },
        Event.pingerReset]) := by
    rw [hr1]
    simp only [handleMessage, handlePubrel, Option.getD_some]
    norm_num
    rw [lookup_upsert_self]
    simp only [receiveMessage, h4, if_true, w]
    rw [scheduleMessage_immediate _ _ (by exact h1) (by exact h2) (by exact h3)]
    try rfl
    try exact ⟨rfl, rfl⟩
  have hr3 : handleMessage (handleMessage (handleMessage s w).1
      { type := 6, messageIdentifier := some mid }).1
      { type := 6, messageIdentifier := some mid } =
      ({ s with receivedMessages := removeKey (upsert s.receivedMessages mid w) mid,
                storeReceived := removeKey (removeKey (upsert s.storeReceived mid w) mid) mid },
       [Event.transmit { type := 7, messageIdentifier := some mid },
        Event.pingerReset]) := by
    rw [hr2]
    simp only [handleMessage, handlePubrel, Option.getD_some]
    norm_num
    rw [lookup_removeKey_self]
    rw [scheduleMessage_immediate _ _ (by exact h1) (by exact h2) (by exact h3)]
    try rfl
    try exact ⟨rfl, rfl⟩
  refine ⟨?_, ?_, ?_, ?_, ?_, ?_, ?_, ?_⟩
  · show (handleMessage s w).2 = _
    rw [hr1]
  · intro msg
    show Event.arrived msg ∉ (handleMessage s w).2
    rw [hr1]
    simp
  · show List.lookup mid (handleMessage s w).1.receivedMessages = some w
    rw [hr1]
    exact lookup_upsert_self _ _ _
  · show List.lookup mid (handleMessage s w).1.storeReceived = some w
    rw [hr1]
    exact lookup_upsert_self _ _ _
  · show (handleMessage (handleMessage s w).1
      { type := 6, messageIdentifier := some mid }).2 = _
    rw [hr2]
  · show List.lookup mid (handleMessage (handleMessage s w).1
      { type := 6, messageIdentifier := some mid }).1.receivedMessages = none
    rw [hr2]
    exact lookup_removeKey_self _ _
  · show List.lookup mid (handleMessage (handleMessage s w).1
      { type := 6, messageIdentifier := some mid }).1.storeReceived = none
    rw [hr2]
    exact lookup_removeKey_self _ _
  · show (handleMessage (handleMessage (handleMessage s w).1
      { type := 6, messageIdentifier := some mid }).1
      { type := 6, messageIdentifier := some mid }).2 = _
    rw [hr3]

/-- C3 witness: inbound PUBLISH(qos 2, id 9) then PUBREL(9) on a connected
client delivers the message exactly once and answers PUBCOMP(9). -/
theorem qos2_inbound_exactly_once_witness :
    ({ connected := true, socket := true, onMessageArrived := true } : ClientState).connected = true ∧
    ({ qos := 2 } : PMessage).qos = 2 ∧
    (handleMessage (handleMessage
        { connected := true, socket := true, onMessageArrived := true }
        { type := 3, messageIdentifier := some 9, payloadMessage := some { qos := 2 } }).1
      { type := 6, messageIdentifier := some 9 }).2 =
      [Event.arrived (some { qos := 2 }),
       Event.transmit { type := 7, messageIdentifier := some 9 },
       Event.pingerReset] := by
  refine ⟨rfl, rfl, ?_⟩
  obtain ⟨-, -, -, -, h5, -, -, -⟩ := qos2_inbound_exactly_once
    { connected := true, socket := true, onMessageArrived := true } { qos := 2 } 9
    rfl rfl rfl rfl rfl
  exact h5

/-- On a connected client with an empty queue and no notify action, the
CONNACK replay loop transmits each entry immediately, turning a PUBLISH with
`pubRecReceived` into a PUBREL with the same identifier and sending every
other entry unchanged. -/
theorem replayAll_immediate (s : ClientState) (l : List WireMsg)
    (hc : s.connected = true) (hq : s.msgQueue = []) (hn : s.notifySlot = false) :
    replayAll s l =
      (s, l.flatMap (fun m =>
        [Event.transmit (if m.type = 3 ∧ m.pubRecReceived then
            { type := 6, messageIdentifier := m.messageIdentifier } else m),
         Event.pingerReset])) := by
  induction l with
  | nil => simp [replayAll]
  | cons m rest ih =>
    simp only [replayAll]
    rw [scheduleMessage_immediate s _ hc hq hn]
    rw [ih]
    simp

/-- C1: after a CONNACK with return code 0 (no clean session requested), the
engine replays the whole `sentMessages` table, ordered by ascending persisted
send sequence number (given every entry carries a sequence number and the
sequence numbers are pairwise distinct, as `store` guarantees); a PUBLISH
entry with `pubRecReceived` goes out as a PUBREL carrying the same message
identifier, every other entry is re-scheduled unchanged; then the
connect-success callback fires. -/
theorem connack_replays_in_sequence_order (s : ClientState)
    (h0 : s.cleanSession = false) (h2 : s.msgQueue = []) (h3 : s.notifySlot = false)
    (hnd : (s.sentMessages.map (fun p => (p.2).sequence.getD 0)).Nodup) :
    ∃ replay : List WireMsg,
      replay.Perm (s.sentMessages.map (·.2)) ∧
      replay.Pairwise (fun a b => a.sequence.getD 0 < b.sequence.getD 0) ∧
      (handleMessage s { type := 2, returnCode := some 0 }).2 =
        [Event.connectTimeoutCancel] ++
        (replay.flatMap (fun m =>
          [Event.transmit (if m.type = 3 ∧ m.pubRecReceived then
              { type := 6, messageIdentifier := m.messageIdentifier } else m),
           Event.pingerReset])) ++
        (if s.hasOnSuccessConnect then [Event.connackSuccess] else []) ∧
      (handleMessage s { type := 2, returnCode := some 0 }).1.connected = true := by
  refine ⟨List.insertionSort seqLE (objectValues s.sentMessages), ?_, ?_, ?_, ?_⟩
  · have hp1 : (List.insertionSort seqLE (objectValues s.sentMessages)).Perm
        (objectValues s.sentMessages) := List.perm_insertionSort seqLE _
    have hp2 : (objectValues s.sentMessages).Perm (s.sentMessages.map (·.2)) := by
      unfold objectValues
      exact (List.perm_insertionSort keyLE s.sentMessages).map (·.2)
    exact hp1.trans hp2
  · have hle : (List.insertionSort seqLE (objectValues s.sentMessages)).Pairwise seqLE :=
      List.sorted_insertionSort seqLE _
    have hperm : (List.insertionSort seqLE (objectValues s.sentMessages)).Perm
        (s.sentMessages.map (·.2)) := by
      refine (List.perm_insertionSort seqLE _).trans ?_
      unfold objectValues
      exact (List.perm_insertionSort keyLE s.sentMessages).map (·.2)
    have hnd2 : ((List.insertionSort seqLE (objectValues s.sentMessages)).map
        (fun m => m.sequence.getD 0)).Nodup := by
      refine (List.Perm.nodup_iff (List.Perm.map _ hperm)).mpr ?_
      simpa [List.map_map, Function.comp] using hnd
    have hne : (List.insertionSort seqLE (objectValues s.sentMessages)).Pairwise
        (fun a b => a.sequence.getD 0 ≠ b.sequence.getD 0) :=
      List.pairwise_map.mp hnd2
    exact (hle.and hne).imp (fun hab => Nat.lt_of_le_of_ne hab.1 hab.2)
  · simp only [handleMessage, handleConnack, h0, Bool.false_eq_true, if_false]
    norm_num
    rw [replayAll_immediate _ _ rfl (by exact h2) (by exact h3)]
    simp only [processQueue]
    simp [objectValues, h2, h3, processQueueAux]
  · simp only [handleMessage, handleConnack, h0, Bool.false_eq_true, if_false]
    norm_num
    rw [replayAll_immediate _ _ rfl (by exact h2) (by exact h3)]
    simp [processQueue, h2, h3, processQueueAux]

/-- C1 witness: entries persisted with sequence numbers 3, 1, 2 on
identifiers 1 (A), 2 (B), 3 (C) — A with `pubRecReceived` — replay after a
successful CONNACK in the order B, C, A, with A going out as PUBREL(1). -/
theorem connack_replays_in_sequence_order_witness :
    c1State.cleanSession = false ∧
    (c1State.sentMessages.map (fun p => (p.2).sequence.getD 0)).Nodup ∧
    (∃ replay : List WireMsg,
       replay.Perm (c1State.sentMessages.map (·.2)) ∧
       replay.Pairwise (fun a b => a.sequence.getD 0 < b.sequence.getD 0)) ∧
    (handleMessage c1State { type := 2, returnCode := some 0 }).2 =
      [Event.connectTimeoutCancel,
       Event.transmit (c1Entry 2 1 false), Event.pingerReset,
       Event.transmit (c1Entry 3 2 false), Event.pingerReset,
       Event.transmit { type := 6, messageIdentifier := some 1 }, Event.pingerReset,
       Event.connackSuccess] := by
  obtain ⟨replay, hperm, hpair, -, -⟩ :=
    connack_replays_in_sequence_order c1State rfl rfl rfl (by decide)
  exact ⟨rfl, by decide, ⟨replay, hperm, hpair⟩, by decide⟩

/-! ## Multi-byte-integer lemmas (C5, C4) -/

theorem orCont : ∀ x < 128, x ||| 128 = x + 128 := by decide

set_option maxRecDepth 4000 in
theorem byteAnd127 : ∀ d < 256, d &&& 127 = d % 128 := by decide

set_option maxRecDepth 4000 in
theorem byteAnd128 : ∀ d < 256, ((d &&& 128 = 0) ↔ d < 128) := by decide

/-- Full behaviour of the `encodeMBI` do-while body with enough fuel:
non-empty minimal-length output, bytes under 256, continuation bits on every
byte but the last, base-128 digits of the value, and exact inversion by the
decode loop (with any trailing bytes). -/
theorem encodeMBIAux_spec :
    ∀ (fuel n : Nat), 0 < fuel → n < 128 ^ fuel →
    1 ≤ (encodeMBIAux n fuel).length ∧
    (encodeMBIAux n fuel).length ≤ fuel ∧
    (∀ b ∈ encodeMBIAux n fuel, b < 256) ∧
    n < 128 ^ (encodeMBIAux n fuel).length ∧
    ((encodeMBIAux n fuel).length = 1 ∨
       128 ^ ((encodeMBIAux n fuel).length - 1) ≤ n) ∧
    (∀ b ∈ (encodeMBIAux n fuel).dropLast, b &&& 128 ≠ 0) ∧
    (∃ lb, (encodeMBIAux n fuel).getLast? = some lb ∧ lb &&& 128 = 0) ∧
    (∀ i, i < (encodeMBIAux n fuel).length →
       ((encodeMBIAux n fuel).getD i 0) &&& 127 = n / 128 ^ i % 128) ∧
    (∀ rest mult acc, decodeMBIList (encodeMBIAux n fuel ++ rest) mult acc =
       some (acc + n * mult, (encodeMBIAux n fuel).length)) := by
  intro fuel
  induction fuel with
  | zero => intro n h0 _; omega
  | succ f ih =>
    intro n _ hbound
    have hshift : n >>> 7 = n / 128 := by
      rw [Nat.shiftRight_eq_div_pow]
      try norm_num
    by_cases hq : n / 128 > 0
    · have hf : 0 < f := by
        rcases Nat.eq_zero_or_pos f with hf0 | hf0
        · exfalso
          subst hf0
          norm_num at hbound
          omega
        · exact hf0
      have hq2 : n / 128 < 128 ^ f := by
        rw [Nat.div_lt_iff_lt_mul (by norm_num : (0:Nat) < 128)]
        calc n < 128 ^ (f + 1) := hbound
        _ = 128 ^ f * 128 := by rw [pow_succ]
      obtain ⟨ih1, ih2, ih3, ih4, ih5, ih6, ih7, ih8, ih9⟩ := ih (n / 128) hf hq2
      have henc : encodeMBIAux n (f + 1) =
          (n % 128 ||| 128) :: encodeMBIAux (n / 128) f := by
        simp only [encodeMBIAux, hshift]
        rw [if_pos hq]
      have hhb : n % 128 ||| 128 = n % 128 + 128 :=
        orCont (n % 128) (Nat.mod_lt n (by norm_num))
      have hhb256 : n % 128 + 128 < 256 := by
        have := Nat.mod_lt n (show 0 < 128 by norm_num)
        omega
      have hne : encodeMBIAux (n / 128) f ≠ [] := by
        intro hcon
        rw [hcon] at ih1
        simp at ih1
      rcases hE : encodeMBIAux (n / 128) f with _ | ⟨e0, erest⟩
      · exact absurd hE hne
      rw [hE] at ih1 ih2 ih3 ih4 ih5 ih6 ih7 ih8 ih9
      rw [henc, hE]
      have hdm : 128 * (n / 128) + n % 128 = n := Nat.div_add_mod n 128
      refine ⟨by simp only [List.length_cons]; omega,
        by simp only [List.length_cons] at ih2 ⊢; omega,
        ?_, ?_, ?_, ?_, ?_, ?_, ?_⟩
      · intro b hb
        rcases List.mem_cons.mp hb with hb1 | hb2
        · rw [hb1, hhb]; exact hhb256
        · exact ih3 b hb2
      · have h128 : n < 128 * 128 ^ (e0 :: erest).length := by
          have := (Nat.div_lt_iff_lt_mul (by norm_num : (0:Nat) < 128)).mp ih4
          calc n < 128 ^ (e0 :: erest).length * 128 := this
          _ = 128 * 128 ^ (e0 :: erest).length := by ring
        calc n < 128 * 128 ^ (e0 :: erest).length := h128
        _ = 128 ^ ((e0 :: erest).length + 1) := by rw [pow_succ]; ring
        _ = 128 ^ ((n % 128 ||| 128) :: e0 :: erest).length := by
              simp [List.length_cons]
      · right
        rcases ih5 with h1 | h1
        · simp only [List.length_cons] at h1 ⊢
          have : erest.length = 0 := by omega
          simp only [this]
          norm_num
          omega
        · simp only [List.length_cons] at h1 ⊢
          have hstep : 128 ^ (erest.length + 1) ≤ 128 * (n / 128) := by
            rw [pow_succ]
            have : 128 ^ erest.length ≤ n / 128 := by
              simpa using h1
            calc 128 ^ erest.length * 128 = 128 * 128 ^ erest.length := by ring
            _ ≤ 128 * (n / 128) := by
                  exact Nat.mul_le_mul_left 128 this
          simp only [Nat.add_sub_cancel]
          omega
      · intro b hb
        rw [List.dropLast_cons₂] at hb
        rcases List.mem_cons.mp hb with hb1 | hb2
        · rw [hb1, hhb]
          have := (byteAnd128 (n % 128 + 128) hhb256)
          omega
        · exact ih6 b hb2
      · obtain ⟨lb, hlb1, hlb2⟩ := ih7
        refine ⟨lb, ?_, hlb2⟩
        rw [List.getLast?_cons_cons]
        exact hlb1
      · intro i hi
        cases i with
        | zero =>
          simp only [List.getD_cons_zero, pow_zero, Nat.div_one]
          rw [hhb]
          rw [byteAnd127 (n % 128 + 128) hhb256]
          omega
        | succ j =>
          simp only [List.getD_cons_succ]
          have hj : j < (e0 :: erest).length := by
            simp only [List.length_cons] at hi ⊢
            omega
          have := ih8 j hj
          rw [this]
          rw [Nat.div_div_eq_div_mul]
          congr 1
          rw [pow_succ]
          ring_nf
      · intro rest mult acc
        have ha : (n % 128 ||| 128) &&& 127 = n % 128 := by
          rw [hhb, byteAnd127 (n % 128 + 128) hhb256]
          omega
        have hb : (n % 128 ||| 128) &&& 128 ≠ 0 := by
          rw [hhb]
          have := byteAnd128 (n % 128 + 128) hhb256
          omega
        rw [show ((n % 128 ||| 128) :: e0 :: erest) ++ rest =
            (n % 128 ||| 128) :: ((e0 :: erest) ++ rest) from rfl]
        rw [decodeMBIList]
        try dsimp only
        rw [ha, if_pos hb]
        rw [ih9 rest (mult * 128) (acc + n % 128 * mult)]
        have hval : acc + n % 128 * mult + n / 128 * (mult * 128) =
            acc + n * mult := by
          have hx : n % 128 * mult + n / 128 * (mult * 128) = n * mult := by
            calc n % 128 * mult + n / 128 * (mult * 128)
                = (128 * (n / 128) + n % 128) * mult := by ring
            _ = n * mult := by rw [hdm]
          omega
        simp only [List.length_cons, hval]
        try rfl
    · have hn : n < 128 := by
        by_contra hge
        push_neg at hge
        have : 1 ≤ n / 128 := (Nat.one_le_div_iff (by norm_num)).mpr hge
        omega
      have henc : encodeMBIAux n (f + 1) = [n % 128] := by
        simp only [encodeMBIAux, hshift]
        rw [if_neg hq]
      have hmod : n % 128 = n := Nat.mod_eq_of_lt hn
      rw [henc, hmod]
      have hn256 : n < 256 := by omega
      refine ⟨by simp, by simp, ?_, by simpa using hn, Or.inl rfl, ?_, ?_, ?_, ?_⟩
      · intro b hb
        simp only [List.mem_singleton] at hb
        omega
      · intro b hb
        simp at hb
      · refine ⟨n, by simp, ?_⟩
        have := byteAnd128 n hn256
        omega
      · intro i hi
        simp only [List.length_singleton] at hi
        have : i = 0 := by omega
        subst this
        simp only [List.getD_cons_zero, pow_zero, Nat.div_one]
        rw [byteAnd127 n hn256, hmod]
      · intro rest mult acc
        simp only [List.cons_append, decodeMBIList]
        rw [byteAnd127 n hn256, hmod]
        have : n &&& 128 = 0 := by
          have := byteAnd128 n hn256
          omega
        rw [if_neg (by omega : ¬ n &&& 128 ≠ 0)]
        simp [List.length_singleton]

/-- C5: for 0 ≤ n ≤ 268435455, `encodeMBI n` emits between 1 and 4 bytes,
each a byte value carrying the base-128 digits of n in its low 7 bits, with
the 0x80 continuation bit set on every byte but the last and clear on the
last; the byte count is minimal for the value (n < 128^len, and unless the
length is 1, 128^(len-1) ≤ n); and the remaining-length decode loop of
`decodeMessage` recovers n and the exact byte count from the encoding (with
any trailing bytes present). -/
theorem encodeMBI_minimal_roundtrip (n : Nat) (h : n ≤ 268435455) :
    1 ≤ (encodeMBI n).length ∧ (encodeMBI n).length ≤ 4 ∧
    (∀ b ∈ encodeMBI n, b < 256) ∧
    (∀ b ∈ (encodeMBI n).dropLast, b &&& 0x80 ≠ 0) ∧
    (∃ lb, (encodeMBI n).getLast? = some lb ∧ lb &&& 0x80 = 0) ∧
    n < 128 ^ (encodeMBI n).length ∧
    ((encodeMBI n).length = 1 ∨ 128 ^ ((encodeMBI n).length - 1) ≤ n) ∧
    (∀ i, i < (encodeMBI n).length →
       ((encodeMBI n).getD i 0) &&& 0x7F = n / 128 ^ i % 128) ∧
    (∀ rest, decodeMBIList (encodeMBI n ++ rest) 1 0 =
       some (n, (encodeMBI n).length)) := by
  have hb : n < 128 ^ 4 := by norm_num; omega
  obtain ⟨h1, h2, h3, h4, h5, h6, h7, h8, h9⟩ :=
    encodeMBIAux_spec 4 n (by norm_num) hb
  refine ⟨h1, h2, h3, h6, h7, h4, h5, h8, ?_⟩
  intro rest
  have := h9 rest 1 0
  simpa using this

/-- C5 witness: the encoding of 2097152 (= 128^3) is 4 bytes and decodes
back to 2097152. -/
theorem encodeMBI_minimal_roundtrip_witness :
    (2097152 : Nat) ≤ 268435455 ∧
    decodeMBIList (encodeMBI 2097152 ++ []) 1 0 =
      some (2097152, (encodeMBI 2097152).length) ∧
    (encodeMBI 2097152).length = 4 :=
  ⟨by norm_num,
   (encodeMBI_minimal_roundtrip 2097152 (by norm_num)).2.2.2.2.2.2.2.2 [],
   by decide⟩

/-- The decode loop agrees with the specification-side multi-byte integer on
byte-valued input. -/
theorem decodeMBIList_eq_spec (l : List Nat) (hB : ∀ b ∈ l, b < 256) :
    ∀ mult acc, decodeMBIList l mult acc =
      (specMBI l).map (fun p => (acc + p.1 * mult, p.2)) := by
  induction l with
  | nil => intro mult acc; rfl
  | cons d rest ih =>
    intro mult acc
    have hd : d < 256 := hB d (List.mem_cons_self _ _)
    have hrest : ∀ b ∈ rest, b < 256 := fun b hb => hB b (List.mem_cons_of_mem _ hb)
    simp only [decodeMBIList, specMBI]
    by_cases hlt : d < 128
    · have hcont : d &&& 128 = 0 := (byteAnd128 d hd).mpr hlt
      rw [if_pos hlt, if_neg (by omega : ¬ d &&& 128 ≠ 0), byteAnd127 d hd,
        Nat.mod_eq_of_lt hlt]
      rfl
    · have hcont : d &&& 128 ≠ 0 := by
        have := byteAnd128 d hd
        omega
      rw [if_neg hlt, if_pos hcont, byteAnd127 d hd]
      rw [ih hrest (mult * 128) (acc + d % 128 * mult)]
      cases hs : specMBI rest with
      | none => rfl
      | some p =>
        rcases p with ⟨v, c⟩
        have hm : d % 128 = d - 128 := by omega
        simp only [Option.map_some']
        have : acc + d % 128 * mult + v * (mult * 128) =
            acc + (d - 128 + 128 * v) * mult := by
          rw [hm]
          ring
        rw [this]

/-- The decode loop reads only the bytes it consumes: truncating at or after
the consumed count preserves the result. -/
theorem decodeMBIList_take_ge (l : List Nat) :
    ∀ mult acc v c k, decodeMBIList l mult acc = some (v, c) → c ≤ k →
      decodeMBIList (l.take k) mult acc = some (v, c) := by
  induction l with
  | nil => intro mult acc v c k h _; simp [decodeMBIList] at h
  | cons d rest ih =>
    intro mult acc v c k h hk
    simp only [decodeMBIList] at h
    by_cases hcont : d &&& 128 ≠ 0
    · rw [if_pos hcont] at h
      rcases hinner : decodeMBIList rest (mult * 128) (acc + (d &&& 127) * mult)
        with _ | p
      · rw [hinner] at h
        simp at h
      · rcases p with ⟨v2, c2⟩
        rw [hinner] at h
        simp only [Option.some.injEq, Prod.mk.injEq] at h
        obtain ⟨hv, hc⟩ := h
        have hk1 : 1 ≤ k := by omega
        obtain ⟨k2, rfl⟩ : ∃ k2, k = k2 + 1 := ⟨k - 1, by omega⟩
        rw [List.take_succ_cons]
        simp only [decodeMBIList]
        rw [if_pos hcont]
        rw [ih (mult * 128) (acc + (d &&& 127) * mult) v2 c2 k2 hinner (by omega)]
        rw [hv, ← hc]
    · rw [if_neg hcont] at h
      simp only [Option.some.injEq, Prod.mk.injEq] at h
      obtain ⟨hv, hc⟩ := h
      obtain ⟨k2, rfl⟩ : ∃ k2, k = k2 + 1 := ⟨k - 1, by omega⟩
      rw [List.take_succ_cons]
      simp only [decodeMBIList]
      rw [if_neg hcont, hv, ← hc]

/-- Truncating strictly inside the length field leaves the loop incomplete. -/
theorem decodeMBIList_take_lt (l : List Nat) :
    ∀ mult acc v c k, decodeMBIList l mult acc = some (v, c) → k < c →
      decodeMBIList (l.take k) mult acc = none := by
  induction l with
  | nil => intro mult acc v c k h _; simp [decodeMBIList] at h
  | cons d rest ih =>
    intro mult acc v c k h hk
    cases k with
    | zero => rfl
    | succ j =>
      simp only [decodeMBIList] at h
      by_cases hcont : d &&& 128 ≠ 0
      · rw [if_pos hcont] at h
        rcases hinner : decodeMBIList rest (mult * 128) (acc + (d &&& 127) * mult)
          with _ | p
        · rw [hinner] at h
          simp at h
        · rcases p with ⟨v2, c2⟩
          rw [hinner] at h
          simp only [Option.some.injEq, Prod.mk.injEq] at h
          obtain ⟨hv, hc⟩ := h
          rw [List.take_succ_cons]
          simp only [decodeMBIList]
          rw [if_pos hcont]
          rw [ih (mult * 128) (acc + (d &&& 127) * mult) v2 c2 j hinner (by omega)]
      · rw [if_neg hcont] at h
        simp only [Option.some.injEq, Prod.mk.injEq] at h
        omega

/-- Shape of a successful `decodeMessage`: the returned offset is start + 1
header byte + the length-field bytes + the declared remaining length, and it
lies within the buffer. -/
theorem decodeMessage_ok_some (input : List Nat) (pos : Nat) (w : WireMsg)
    (e : Nat) (h : decodeMessage input pos = .ok (some w, e)) :
    pos < input.length ∧
    ∃ rl c, decodeMBIList (input.drop (pos + 1)) 1 0 = some (rl, c) ∧
      e = pos + 1 + c + rl ∧ e ≤ input.length := by
  unfold decodeMessage at h
  split at h
  · rename_i hlt
    refine ⟨hlt, ?_⟩
    split at h
    · simp at h
    · rename_i rl0 c0 heq
      dsimp only at h
      split at h
      · simp at h
      · rename_i hle
        split at h
        · simp at h
        · rename_i w2 hpb
          simp only [Except.ok.injEq, Prod.mk.injEq, Option.some.injEq] at h
          refine ⟨rl0, c0, heq, by omega, by omega⟩
  · simp at h

/-- A strict, non-empty prefix of one complete packet is incomplete: decode
signals null with the original offset. -/
theorem decodeMessage_take_none (input : List Nat) (w : WireMsg) (n : Nat)
    (h : decodeMessage input 0 = .ok (some w, input.length))
    (h0 : 0 < n) (hn : n < input.length) :
    decodeMessage (input.take n) 0 = .ok (none, 0) := by
  obtain ⟨hpos, rl, c, hmbi, he, hle⟩ := decodeMessage_ok_some input 0 w
    input.length h
  have hlen : (input.take n).length = n := by
    rw [List.length_take]
    omega
  have hdrop : (input.take n).drop 1 = (input.drop 1).take (n - 1) := by
    rw [List.drop_take]
  unfold decodeMessage
  rw [if_pos (by omega : 0 < (input.take n).length)]
  dsimp only
  simp only [Nat.zero_add] at hmbi ⊢
  rw [hdrop]
  rcases Nat.lt_or_ge (n - 1) c with hc | hc
  · rw [decodeMBIList_take_lt (input.drop 1) 1 0 rl c (n - 1) hmbi hc]
  · rw [decodeMBIList_take_ge (input.drop 1) 1 0 rl c (n - 1) hmbi hc]
    dsimp only
    rw [if_pos (by omega : 1 + c + rl > (input.take n).length)]

/-- The deframe loop body when the offset has reached the end. -/
theorem deframeLoopF_done (fuel : Nat) (buf : List Nat) (offset : Nat)
    (h : ¬ offset < buf.length) : deframeLoopF fuel buf offset = .ok ([], offset) := by
  cases fuel <;> simp [deframeLoopF, h]

/-- C4: (1) if the multi-byte remaining-length field (in the spec's sense)
continues past the end of the buffer, `decodeMessage` returns a null message
with the original start offset and raises no error; (2) likewise if the
declared remaining length extends past the available bytes; (3) hence one
complete packet split into two non-empty chunks deframes to zero packets
after the first chunk — the whole chunk retained in the receive buffer — and
to exactly the one packet, with nothing retained, once the remainder
arrives. -/
theorem decode_truncation_and_deframe_split :
    (∀ (input : List Nat) (pos : Nat), (∀ b ∈ input, b < 256) →
       pos < input.length →
       specMBI (input.drop (pos + 1)) = none →
       decodeMessage input pos = .ok (none, pos)) ∧
    (∀ (input : List Nat) (pos v c : Nat), (∀ b ∈ input, b < 256) →
       pos < input.length →
       specMBI (input.drop (pos + 1)) = some (v, c) →
       input.length < pos + 1 + c + v →
       decodeMessage input pos = .ok (none, pos)) ∧
    (∀ (c1 c2 : List Nat) (w : WireMsg), c1 ≠ [] → c2 ≠ [] →
       decodeMessage (c1 ++ c2) 0 = .ok (some w, (c1 ++ c2).length) →
       deframeMessages none c1 = .ok ([], some c1) ∧
       deframeMessages (some c1) c2 = .ok ([w], none)) := by
  refine ⟨?_, ?_, ?_⟩
  · intro input pos hB hpos hspec
    have hd : decodeMBIList (input.drop (pos + 1)) 1 0 = none := by
      rw [decodeMBIList_eq_spec _ (fun b hb => hB b (List.mem_of_mem_drop hb)),
        hspec]
      rfl
    unfold decodeMessage
    rw [if_pos hpos, hd]
  · intro input pos v c hB hpos hspec hover
    have hd : decodeMBIList (input.drop (pos + 1)) 1 0 = some (v, c) := by
      rw [decodeMBIList_eq_spec _ (fun b hb => hB b (List.mem_of_mem_drop hb)),
        hspec]
      simp
    unfold decodeMessage
    rw [if_pos hpos, hd]
    dsimp only
    rw [if_pos (by omega : pos + 1 + c + v > input.length)]
  · intro c1 c2 w h1 h2 hdec
    have hlen1 : 0 < c1.length := List.length_pos.mpr h1
    have hlen2 : 0 < c2.length := List.length_pos.mpr h2
    have hlt : c1.length < (c1 ++ c2).length := by
      rw [List.length_append]
      omega
    have htake : (c1 ++ c2).take c1.length = c1 := List.take_left c1 c2
    have hpre : decodeMessage c1 0 = .ok (none, 0) := by
      have := decodeMessage_take_none (c1 ++ c2) w c1.length hdec hlen1 hlt
      rwa [htake] at this
    constructor
    · unfold deframeMessages deframeLoop
      simp only [Option.getD_none, List.nil_append]
      rw [deframeLoopF]
      rw [if_pos hlen1, hpre]
      dsimp only
      rw [if_pos hlen1, List.drop_zero]
    · unfold deframeMessages deframeLoop
      simp only [Option.getD_some]
      have hlen12 : 0 < (c1 ++ c2).length := by
        rw [List.length_append]
        omega
      rw [deframeLoopF]
      rw [if_pos hlen12, hdec]
      dsimp only
      rw [deframeLoopF_done _ _ _
        (by omega : ¬ (c1 ++ c2).length < (c1 ++ c2).length)]
      dsimp only
      rw [if_neg (by omega : ¬ (c1 ++ c2).length < (c1 ++ c2).length)]

/-- C4 witness: `[0x20]` (CONNACK header, length field missing) and
`[0x20, 0x02, 0x00]` (declared length 2, one body byte missing) decode to
null at offset 0; feeding the 4-byte CONNACK split 3 + 1 through the
deframer yields no packet after the first chunk, the chunk retained, and
exactly one packet with nothing retained after the second. -/
theorem decode_truncation_and_deframe_split_witness :
    (∀ b ∈ [0x20], b < 256) ∧ specMBI ([0x20].drop 1) = none ∧
    decodeMessage [0x20] 0 = .ok (none, 0) ∧
    decodeMessage [0x20, 0x02, 0x00] 0 = .ok (none, 0) ∧
    deframeMessages none [0x20, 0x02, 0x00] = .ok ([], some [0x20, 0x02, 0x00]) ∧
    deframeMessages (some [0x20, 0x02, 0x00]) [0x00] =
      .ok ([{ type := 2, returnCode := some 0 }], none) := by
  refine ⟨by decide, by decide, ?_, ?_, ?_, ?_⟩
  · exact decode_truncation_and_deframe_split.1 [0x20] 0 (by decide) (by decide)
      (by decide)
  · exact decode_truncation_and_deframe_split.2.1 [0x20, 0x02, 0x00] 0 2 1
      (by decide) (by decide) (by decide) (by decide)
  · exact (decode_truncation_and_deframe_split.2.2 [0x20, 0x02, 0x00] [0x00]
      { type := 2, returnCode := some 0 } (by decide) (by decide) rfl).1
  · exact (decode_truncation_and_deframe_split.2.2 [0x20, 0x02, 0x00] [0x00]
      { type := 2, returnCode := some 0 } (by decide) (by decide) rfl).2

/-! ## UTF-8 codec lemmas (C6) -/

theorem orLead2 : ∀ x < 64, x ||| 192 = x + 192 := by decide

theorem orLead3 : ∀ x < 32, x ||| 224 = x + 224 := by decide

theorem orLead4 : ∀ x < 16, x ||| 240 = x + 240 := by decide

theorem and31 (x : Nat) : x &&& 31 = x % 32 := by
  have := Nat.and_pow_two_sub_one_eq_mod x 5
  norm_num at this
  exact this

theorem and63 (x : Nat) : x &&& 63 = x % 64 := by
  have := Nat.and_pow_two_sub_one_eq_mod x 6
  norm_num at this
  exact this

theorem and15 (x : Nat) : x &&& 15 = x % 16 := by
  have := Nat.and_pow_two_sub_one_eq_mod x 4
  norm_num at this
  exact this

theorem and7 (x : Nat) : x &&& 7 = x % 8 := by
  have := Nat.and_pow_two_sub_one_eq_mod x 3
  norm_num at this
  exact this

theorem shr6 (x : Nat) : x >>> 6 = x / 64 := by
  rw [Nat.shiftRight_eq_div_pow]

theorem shr12 (x : Nat) : x >>> 12 = x / 4096 := by
  rw [Nat.shiftRight_eq_div_pow]

theorem shr18 (x : Nat) : x >>> 18 = x / 262144 := by
  rw [Nat.shiftRight_eq_div_pow]

theorem encodeCodePoint_one (cp : Nat) (h : cp ≤ 0x7F) : encodeCodePoint cp = [cp] := by
  unfold encodeCodePoint
  rw [if_pos h]

theorem encodeCodePoint_two (cp : Nat) (h1 : 0x80 ≤ cp) (h2 : cp ≤ 0x7FF) :
    encodeCodePoint cp = [cp / 64 + 0xC0, cp % 64 + 0x80] := by
  unfold encodeCodePoint
  rw [if_neg (by omega), if_pos h2, shr6, and31,
    Nat.mod_eq_of_lt (by omega : cp / 64 < 32), orLead2 _ (by omega : cp / 64 < 64),
    and63, orCont _ (by omega : cp % 64 < 128)]

theorem encodeCodePoint_three (cp : Nat) (h1 : 0x800 ≤ cp) (h2 : cp ≤ 0xFFFF) :
    encodeCodePoint cp = [cp / 4096 + 0xE0, cp / 64 % 64 + 0x80, cp % 64 + 0x80] := by
  unfold encodeCodePoint
  rw [if_neg (by omega), if_neg (by omega), if_pos h2, shr12, and15,
    Nat.mod_eq_of_lt (by omega : cp / 4096 < 16), orLead3 _ (by omega : cp / 4096 < 32),
    shr6, and63, orCont _ (by omega : cp / 64 % 64 < 128), and63,
    orCont _ (by omega : cp % 64 < 128)]

theorem encodeCodePoint_four (cp : Nat) (h1 : 0x10000 ≤ cp) (h2 : cp ≤ 0x10FFFF) :
    encodeCodePoint cp =
      [cp / 262144 + 0xF0, cp / 4096 % 64 + 0x80, cp / 64 % 64 + 0x80, cp % 64 + 0x80] := by
  unfold encodeCodePoint
  rw [if_neg (by omega), if_neg (by omega), if_neg (by omega), shr18, and7,
    Nat.mod_eq_of_lt (by omega : cp / 262144 < 8), orLead4 _ (by omega : cp / 262144 < 16),
    shr12, and63, orCont _ (by omega : cp / 4096 % 64 < 128), shr6, and63,
    orCont _ (by omega : cp / 64 % 64 < 128), and63, orCont _ (by omega : cp % 64 < 128)]

theorem emit_small (cp : Nat) (h : cp ≤ 0xFFFF) : emitUtf16 (some (cp : Int)) = [cp] := by
  simp only [emitUtf16, fromCharCode]
  rw [if_neg (by omega : ¬ ((cp : Int) > 0xFFFF))]
  simp only [List.cons.injEq, and_true]
  omega

theorem emit_pair (cp : Nat) (h1 : 0x10000 ≤ cp) (h2 : cp ≤ 0x10FFFF) :
    emitUtf16 (some (cp : Int)) =
      [0xD800 + (cp - 0x10000) / 1024, 0xDC00 + (cp - 0x10000) % 1024] := by
  simp only [emitUtf16, fromCharCode]
  rw [if_pos (by omega : ((cp : Int) > 0xFFFF))]
  have hc : ((cp : Int) - 0x10000) = ((cp - 0x10000 : Nat) : Int) := by omega
  rw [hc,
    show ((cp - 0x10000 : Nat) : Int) / 1024 = (((cp - 0x10000) / 1024 : Nat) : Int) from
      (Int.ofNat_div _ _).symm,
    show ((cp - 0x10000 : Nat) : Int) % 1024 = (((cp - 0x10000) % 1024 : Nat) : Int) from
      (Int.ofNat_mod _ _).symm]
  simp only [List.cons.injEq, and_true]
  exact ⟨by omega, by omega⟩

theorem parseStep1 (cp : Nat) (h : cp < 128) (rest out : List Nat) (rem : Nat)
    (hrem : 1 ≤ rem) :
    parseUTF8Core (cp :: rest) rem out = parseUTF8Core rest (rem - 1) (out ++ [cp]) := by
  rw [parseUTF8Core, if_neg (by omega : ¬ rem = 0)]
  simp only [List.getElem?_cons_zero]
  rw [if_pos h]
  simp only [List.drop_succ_cons, List.drop_zero]

theorem parseStep2 (cp : Nat) (h1 : 0x80 ≤ cp) (h2 : cp ≤ 0x7FF) (rest out : List Nat)
    (rem : Nat) (hrem : 1 ≤ rem) :
    parseUTF8Core ((cp / 64 + 0xC0) :: (cp % 64 + 0x80) :: rest) rem out =
      parseUTF8Core rest (rem - 2) (out ++ [cp]) := by
  rw [parseUTF8Core, if_neg (by omega : ¬ rem = 0)]
  simp only [List.getElem?_cons_zero, List.getElem?_cons_succ, Option.map_some']
  rw [if_neg (by omega : ¬ cp / 64 + 0xC0 < 128)]
  split
  · rename_i hneg
    exfalso
    simp only [negContinuation, decide_eq_true_eq] at hneg
    push_cast at hneg
    omega
  · rw [if_pos (by omega : cp / 64 + 0xC0 < 0xE0)]
    simp only [List.drop_succ_cons, List.drop_zero, Option.map_some']
    have hX : (64 * ((↑(cp / 64 + 0xC0) : Int) - 0xC0) + ((↑(cp % 64 + 0x80) : Int) - 128))
        = (cp : Int) := by
      push_cast
      omega
    rw [hX, emit_small cp (by omega)]

theorem parseStep3 (cp : Nat) (h1 : 0x800 ≤ cp) (h2 : cp ≤ 0xFFFF) (rest out : List Nat)
    (rem : Nat) (hrem : 1 ≤ rem) :
    parseUTF8Core ((cp / 4096 + 0xE0) :: (cp / 64 % 64 + 0x80) :: (cp % 64 + 0x80) :: rest) rem out =
      parseUTF8Core rest (rem - 3) (out ++ [cp]) := by
  rw [parseUTF8Core, if_neg (by omega : ¬ rem = 0)]
  simp only [List.getElem?_cons_zero, List.getElem?_cons_succ, Option.map_some']
  rw [if_neg (by omega : ¬ cp / 4096 + 0xE0 < 128)]
  split
  · rename_i hneg
    exfalso
    simp only [negContinuation, decide_eq_true_eq] at hneg
    push_cast at hneg
    omega
  · rw [if_neg (by omega : ¬ cp / 4096 + 0xE0 < 0xE0)]
    split
    · rename_i hneg
      exfalso
      simp only [negContinuation, decide_eq_true_eq] at hneg
      push_cast at hneg
      omega
    · rw [if_pos (by omega : cp / 4096 + 0xE0 < 0xF0)]
      simp only [List.drop_succ_cons, List.drop_zero, Option.map_some']
      have hX : (4096 * ((↑(cp / 4096 + 0xE0) : Int) - 0xE0) +
          64 * ((↑(cp / 64 % 64 + 0x80) : Int) - 128) + ((↑(cp % 64 + 0x80) : Int) - 128))
          = (cp : Int) := by
        push_cast
        omega
      rw [hX, emit_small cp (by omega)]

theorem parseStep4 (cp : Nat) (h1 : 0x10000 ≤ cp) (h2 : cp ≤ 0x10FFFF) (rest out : List Nat)
    (rem : Nat) (hrem : 1 ≤ rem) :
    parseUTF8Core
        ((cp / 262144 + 0xF0) :: (cp / 4096 % 64 + 0x80) :: (cp / 64 % 64 + 0x80) ::
          (cp % 64 + 0x80) :: rest) rem out =
      parseUTF8Core rest (rem - 4)
        (out ++ [0xD800 + (cp - 0x10000) / 1024, 0xDC00 + (cp - 0x10000) % 1024]) := by
  rw [parseUTF8Core, if_neg (by omega : ¬ rem = 0)]
  simp only [List.getElem?_cons_zero, List.getElem?_cons_succ, Option.map_some']
  rw [if_neg (by omega : ¬ cp / 262144 + 0xF0 < 128)]
  split
  · rename_i hneg
    exfalso
    simp only [negContinuation, decide_eq_true_eq] at hneg
    push_cast at hneg
    omega
  · rw [if_neg (by omega : ¬ cp / 262144 + 0xF0 < 0xE0)]
    split
    · rename_i hneg
      exfalso
      simp only [negContinuation, decide_eq_true_eq] at hneg
      push_cast at hneg
      omega
    · rw [if_neg (by omega : ¬ cp / 262144 + 0xF0 < 0xF0)]
      split
      · rename_i hneg
        exfalso
        simp only [negContinuation, decide_eq_true_eq] at hneg
        push_cast at hneg
        omega
      · rw [if_pos (by omega : cp / 262144 + 0xF0 < 0xF8)]
        simp only [List.drop_succ_cons, List.drop_zero, Option.map_some']
        have hX : (262144 * ((↑(cp / 262144 + 0xF0) : Int) - 0xF0) +
            4096 * ((↑(cp / 4096 % 64 + 0x80) : Int) - 128) +
            64 * ((↑(cp / 64 % 64 + 0x80) : Int) - 128) + ((↑(cp % 64 + 0x80) : Int) - 128))
            = (cp : Int) := by
          push_cast
          omega
        rw [hX, emit_pair cp h1 h2]

theorem utf8Step (c : Nat) (rest bytes' : List Nat)
    (hnsur : ¬(0xD800 ≤ c ∧ c ≤ 0xDBFF)) (hle : c ≤ 0xFFFF)
    (hstr' : stringToUTF8 rest = .ok bytes')
    (hlen' : bytes'.length = UTF8Length rest)
    (hclaim' : UTF8Length rest = utf8LengthPerClaim rest)
    (hparse' : ∀ out, parseUTF8Core bytes' (UTF8Length rest) out = .ok (out ++ rest)) :
    stringToUTF8 (c :: rest) = .ok (encodeCodePoint c ++ bytes') ∧
    (encodeCodePoint c ++ bytes').length = UTF8Length (c :: rest) ∧
    UTF8Length (c :: rest) = utf8LengthPerClaim (c :: rest) ∧
    ∀ out, parseUTF8Core (encodeCodePoint c ++ bytes') (UTF8Length (c :: rest)) out =
      .ok (out ++ c :: rest) := by
  have hstr : stringToUTF8 (c :: rest) = .ok (encodeCodePoint c ++ bytes') := by
    rw [stringToUTF8.eq_def]
    dsimp only
    rw [if_neg hnsur, hstr']
  by_cases hc1 : c ≤ 0x7F
  · have hulen : UTF8Length (c :: rest) = 1 + UTF8Length rest := by
      rw [UTF8Length, if_neg (by omega : ¬ c > 0x7FF), if_neg (by omega : ¬ c > 0x7F)]
    have hplen : utf8LengthPerClaim (c :: rest) = 1 + utf8LengthPerClaim rest := by
      rw [utf8LengthPerClaim, if_neg hnsur, if_pos hc1]
    refine ⟨hstr, ?_, ?_, ?_⟩
    · rw [encodeCodePoint_one c hc1, hulen]
      simp only [List.length_append, List.length_cons, List.length_nil]
      omega
    · rw [hulen, hplen, hclaim']
    · intro out
      rw [hulen, encodeCodePoint_one c hc1]
      simp only [List.cons_append, List.nil_append]
      rw [parseStep1 c (by omega) bytes' out (1 + UTF8Length rest) (by omega)]
      rw [show (1 + UTF8Length rest) - 1 = UTF8Length rest from by omega]
      rw [hparse' (out ++ [c])]
      simp [List.append_assoc]
  · by_cases hc2 : c ≤ 0x7FF
    · have hulen : UTF8Length (c :: rest) = 2 + UTF8Length rest := by
        rw [UTF8Length, if_neg (by omega : ¬ c > 0x7FF), if_pos (by omega : c > 0x7F)]
      have hplen : utf8LengthPerClaim (c :: rest) = 2 + utf8LengthPerClaim rest := by
        rw [utf8LengthPerClaim, if_neg hnsur, if_neg hc1, if_pos hc2]
      refine ⟨hstr, ?_, ?_, ?_⟩
      · rw [encodeCodePoint_two c (by omega) hc2, hulen]
        simp only [List.length_append, List.length_cons, List.length_nil]
        omega
      · rw [hulen, hplen, hclaim']
      · intro out
        rw [hulen, encodeCodePoint_two c (by omega) hc2]
        simp only [List.cons_append, List.nil_append]
        rw [parseStep2 c (by omega) hc2 bytes' out (2 + UTF8Length rest) (by omega)]
        rw [show (2 + UTF8Length rest) - 2 = UTF8Length rest from by omega]
        rw [hparse' (out ++ [c])]
        simp [List.append_assoc]
    · have hulen : UTF8Length (c :: rest) = 3 + UTF8Length rest := by
        rw [UTF8Length, if_pos (by omega : c > 0x7FF), if_neg hnsur]
      have hplen : utf8LengthPerClaim (c :: rest) = 3 + utf8LengthPerClaim rest := by
        rw [utf8LengthPerClaim, if_neg hnsur, if_neg hc1, if_neg hc2]
      refine ⟨hstr, ?_, ?_, ?_⟩
      · rw [encodeCodePoint_three c (by omega) hle, hulen]
        simp only [List.length_append, List.length_cons, List.length_nil]
        omega
      · rw [hulen, hplen, hclaim']
      · intro out
        rw [hulen, encodeCodePoint_three c (by omega) hle]
        simp only [List.cons_append, List.nil_append]
        rw [parseStep3 c (by omega) hle bytes' out (3 + UTF8Length rest) (by omega)]
        rw [show (3 + UTF8Length rest) - 3 = UTF8Length rest from by omega]
        rw [hparse' (out ++ [c])]
        simp [List.append_assoc]

theorem utf8RoundAux : ∀ (n : Nat) (s : List Nat), s.length ≤ n → validUTF16 s = true →
    ∃ bytes, stringToUTF8 s = .ok bytes ∧
      bytes.length = UTF8Length s ∧
      UTF8Length s = utf8LengthPerClaim s ∧
      ∀ out, parseUTF8Core bytes (UTF8Length s) out = .ok (out ++ s) := by
  intro n
  induction n with
  | zero =>
    intro s hs _
    have hnil : s = [] := List.eq_nil_of_length_eq_zero (by omega)
    subst hnil
    exact ⟨[], rfl, by simp [UTF8Length], by rw [UTF8Length, utf8LengthPerClaim],
      fun out => by rw [UTF8Length, parseUTF8Core, if_pos rfl, List.append_nil]⟩
  | succ n ih =>
    intro s hs hv
    cases s with
    | nil =>
      exact ⟨[], rfl, by simp [UTF8Length], by rw [UTF8Length, utf8LengthPerClaim],
        fun out => by rw [UTF8Length, parseUTF8Core, if_pos rfl, List.append_nil]⟩
    | cons c rest =>
      cases rest with
      | nil =>
        rw [validUTF16, decide_eq_true_eq] at hv
        obtain ⟨hle, hnsur16⟩ := hv
        have hnil : ∀ out, parseUTF8Core ([] : List Nat) (UTF8Length []) out =
            .ok (out ++ ([] : List Nat)) := by
          intro out
          rw [UTF8Length, parseUTF8Core, if_pos rfl, List.append_nil]
        obtain ⟨h1, h2, h3, h4⟩ :=
          utf8Step c [] [] (fun h => hnsur16 ⟨h.1, by omega⟩) hle rfl
            (by simp [UTF8Length]) (by rw [UTF8Length, utf8LengthPerClaim]) hnil
        exact ⟨encodeCodePoint c ++ [], h1, h2, h3, h4⟩
      | cons low rest2 =>
        by_cases hsur : 0xD800 ≤ c ∧ c ≤ 0xDBFF
        · rw [validUTF16, if_pos hsur, Bool.and_eq_true, decide_eq_true_eq] at hv
          obtain ⟨hlow, hv2⟩ := hv
          obtain ⟨bytes', hstr', hlen', hclaim', hparse'⟩ :=
            ih rest2 (by simp only [List.length_cons] at hs; omega) hv2
          obtain ⟨cp, hcp⟩ :
              ∃ cp, cp = (c - 0xD800) * 1024 + (low - 0xDC00) + 0x10000 := ⟨_, rfl⟩
          have hcp1 : 0x10000 ≤ cp := by omega
          have hcp2 : cp ≤ 0x10FFFF := by omega
          have hstr : stringToUTF8 (c :: low :: rest2) =
              .ok (encodeCodePoint cp ++ bytes') := by
            rw [stringToUTF8.eq_def]
            dsimp only
            rw [if_pos hsur, hstr']
            dsimp only
            rw [show (((c : Int) - 0xD800) * 1024 + ((low : Int) - 0xDC00) + 0x10000).toNat
              = cp from by omega]
          have hulen : UTF8Length (c :: low :: rest2) = 4 + UTF8Length rest2 := by
            rw [UTF8Length, if_pos (by omega : c > 0x7FF), if_pos hsur]
            simp only [List.tail_cons]
          have hplen : utf8LengthPerClaim (c :: low :: rest2) =
              4 + utf8LengthPerClaim rest2 := by
            rw [utf8LengthPerClaim, if_pos hsur]
            simp only [List.tail_cons]
          refine ⟨encodeCodePoint cp ++ bytes', hstr, ?_, ?_, ?_⟩
          · rw [encodeCodePoint_four cp hcp1 hcp2, hulen]
            simp only [List.length_append, List.length_cons, List.length_nil]
            omega
          · rw [hulen, hplen, hclaim']
          · intro out
            rw [hulen, encodeCodePoint_four cp hcp1 hcp2]
            simp only [List.cons_append, List.nil_append]
            rw [parseStep4 cp hcp1 hcp2 bytes' out (4 + UTF8Length rest2) (by omega)]
            rw [show (4 + UTF8Length rest2) - 4 = UTF8Length rest2 from by omega]
            rw [show [0xD800 + (cp - 0x10000) / 1024, 0xDC00 + (cp - 0x10000) % 1024]
                = [c, low] from by
              simp only [List.cons.injEq, and_true]
              exact ⟨by omega, by omega⟩]
            rw [hparse' (out ++ [c, low])]
            simp [List.append_assoc]
        · rw [validUTF16, if_neg hsur, Bool.and_eq_true, decide_eq_true_eq] at hv
          obtain ⟨⟨hle, _⟩, hv2⟩ := hv
          obtain ⟨bytes', hstr', hlen', hclaim', hparse'⟩ :=
            ih (low :: rest2) (by simp only [List.length_cons] at hs ⊢; omega) hv2
          obtain ⟨h1, h2, h3, h4⟩ :=
            utf8Step c (low :: rest2) bytes' hsur hle hstr' hlen' hclaim' hparse'
          exact ⟨encodeCodePoint c ++ bytes', h1, h2, h3, h4⟩

theorem utf8AppendHighAux : ∀ (n : Nat) (s : List Nat) (c : Nat), s.length ≤ n →
    validUTF16 s = true → 0xD800 ≤ c → c ≤ 0xDBFF →
    stringToUTF8 (s ++ [c]) = .error () := by
  intro n
  induction n with
  | zero =>
    intro s c hs hv h1 h2
    have hnil : s = [] := List.eq_nil_of_length_eq_zero (by omega)
    subst hnil
    rw [List.nil_append, stringToUTF8.eq_def]
    dsimp only
    rw [if_pos ⟨h1, h2⟩]
  | succ n ih =>
    intro s c hs hv h1 h2
    cases s with
    | nil =>
      rw [List.nil_append, stringToUTF8.eq_def]
      dsimp only
      rw [if_pos ⟨h1, h2⟩]
    | cons c1 rest =>
      cases rest with
      | nil =>
        rw [validUTF16, decide_eq_true_eq] at hv
        obtain ⟨hle, hnsur16⟩ := hv
        have hrec : stringToUTF8 [c] = .error () := by
          rw [stringToUTF8.eq_def]
          dsimp only
          rw [if_pos ⟨h1, h2⟩]
        rw [List.cons_append, List.nil_append, stringToUTF8.eq_def]
        dsimp only
        rw [if_neg (fun h => hnsur16 ⟨h.1, by omega⟩), hrec]
      | cons low rest2 =>
        by_cases hsur : 0xD800 ≤ c1 ∧ c1 ≤ 0xDBFF
        · rw [validUTF16, if_pos hsur, Bool.and_eq_true, decide_eq_true_eq] at hv
          obtain ⟨hlow, hv2⟩ := hv
          have hrec := ih rest2 c (by simp only [List.length_cons] at hs; omega) hv2 h1 h2
          rw [List.cons_append, List.cons_append, stringToUTF8.eq_def]
          dsimp only
          rw [if_pos hsur, hrec]
        · rw [validUTF16, if_neg hsur, Bool.and_eq_true, decide_eq_true_eq] at hv
          obtain ⟨⟨hle, hlow⟩, hv2⟩ := hv
          have hrec :=
            ih (low :: rest2) c (by simp only [List.length_cons] at hs ⊢; omega) hv2 h1 h2
          rw [List.cons_append, stringToUTF8.eq_def]
          dsimp only
          rw [if_neg hsur, hrec]

/-- C6 counterexample: `[0xD800, 0x41]` contains an unpaired high surrogate
(the following unit 0x41 is not a low surrogate), yet `stringToUTF8` does not
fail: `charCodeAt(++i)` is not NaN, so the source silently fabricates the
pair code point ((0xD800-0xD800)<<10) + (0x41-0xDC00) + 0x10000 = 0x2441 and
encodes it as three bytes. -/
theorem stringToUTF8_unpaired_high_no_error :
    (0xD800 ≤ 0xD800 ∧ 0xD800 ≤ 0xDBFF) ∧ ¬(0xDC00 ≤ 0x41 ∧ 0x41 ≤ 0xDFFF) ∧
    validUTF16 [0xD800, 0x41] = false ∧
    stringToUTF8 [0xD800, 0x41] = .ok [0xE2, 0x91, 0x81] :=
  ⟨by decide, by decide, by decide, rfl⟩

/-- C6 (amended): for a well-formed UTF-16 string (no unpaired surrogates)
encode succeeds, the byte count equals `UTF8Length`, `UTF8Length` agrees with
the 1/2/3/4-byte rule, and `parseUTF8` recovers the string; `stringToUTF8`
fails on a high surrogate that ends the string (but not, as the original
claim had it, on every unpaired high surrogate); `parseUTF8` fails on a
non-continuation byte (below 0x80) where a continuation is required, and on
a lead byte of 0xF8 or above (an encoding longer than 4 bytes). -/
theorem utf8_roundtrip_amended :
    (∀ s : List Nat, validUTF16 s = true →
      ∃ bytes, stringToUTF8 s = .ok bytes ∧
        bytes.length = UTF8Length s ∧
        UTF8Length s = utf8LengthPerClaim s ∧
        parseUTF8 bytes 0 (UTF8Length s) = .ok s) ∧
    (∀ (s : List Nat) (c : Nat), validUTF16 s = true → 0xD800 ≤ c → c ≤ 0xDBFF →
      stringToUTF8 (s ++ [c]) = .error ()) ∧
    (∀ (b1 b2 : Nat) (rest : List Nat) (len : Nat), 128 ≤ b1 → b2 < 128 → 1 ≤ len →
      parseUTF8 (b1 :: b2 :: rest) 0 len = .error ()) ∧
    (∀ (b1 b2 b3 b4 : Nat) (rest : List Nat) (len : Nat), 0xF8 ≤ b1 → 128 ≤ b2 →
      128 ≤ b3 → 128 ≤ b4 → 1 ≤ len →
      parseUTF8 (b1 :: b2 :: b3 :: b4 :: rest) 0 len = .error ()) := by
  refine ⟨?_, ?_, ?_, ?_⟩
  · intro s hv
    obtain ⟨bytes, hb1, hb2, hb3, hb4⟩ := utf8RoundAux s.length s le_rfl hv
    refine ⟨bytes, hb1, hb2, hb3, ?_⟩
    rw [parseUTF8, List.drop_zero, hb4 [], List.nil_append]
  · intro s c hv h1 h2
    exact utf8AppendHighAux s.length s c le_rfl hv h1 h2
  · intro b1 b2 rest len hb1 hb2 hlen
    rw [parseUTF8, List.drop_zero, parseUTF8Core, if_neg (by omega : ¬ len = 0)]
    simp only [List.getElem?_cons_zero, List.getElem?_cons_succ, Option.map_some']
    rw [if_neg (by omega : ¬ b1 < 128)]
    rw [if_pos (show negContinuation (some ((b2 : Int) - 128)) = true from by
      simp only [negContinuation, decide_eq_true_eq]
      omega)]
  · intro b1 b2 b3 b4 rest len hb1 hb2 hb3 hb4 hlen
    rw [parseUTF8, List.drop_zero, parseUTF8Core, if_neg (by omega : ¬ len = 0)]
    simp only [List.getElem?_cons_zero, List.getElem?_cons_succ, Option.map_some']
    rw [if_neg (by omega : ¬ b1 < 128)]
    rw [if_neg (show ¬ negContinuation (some ((b2 : Int) - 128)) = true from by
      simp only [negContinuation, decide_eq_true_eq]
      omega)]
    rw [if_neg (by omega : ¬ b1 < 0xE0)]
    rw [if_neg (show ¬ negContinuation (some ((b3 : Int) - 128)) = true from by
      simp only [negContinuation, decide_eq_true_eq]
      omega)]
    rw [if_neg (by omega : ¬ b1 < 0xF0)]
    rw [if_neg (show ¬ negContinuation (some ((b4 : Int) - 128)) = true from by
      simp only [negContinuation, decide_eq_true_eq]
      omega)]
    rw [if_neg (by omega : ¬ b1 < 0xF8)]

/-- C6 witness: the roundtrip at H, U+03B1, U+20AC and the surrogate pair
U+1F600; encode failure for H followed by a lone high surrogate; parse
failures for 0xC2 followed by 0x41 and for lead byte 0xF8. -/
theorem utf8_roundtrip_amended_witness :
    validUTF16 [72, 945, 8364, 0xD83D, 0xDE00] = true ∧
    (∃ bytes, stringToUTF8 [72, 945, 8364, 0xD83D, 0xDE00] = .ok bytes ∧
      bytes.length = UTF8Length [72, 945, 8364, 0xD83D, 0xDE00] ∧
      UTF8Length [72, 945, 8364, 0xD83D, 0xDE00] =
        utf8LengthPerClaim [72, 945, 8364, 0xD83D, 0xDE00] ∧
      parseUTF8 bytes 0 (UTF8Length [72, 945, 8364, 0xD83D, 0xDE00]) =
        .ok [72, 945, 8364, 0xD83D, 0xDE00]) ∧
    stringToUTF8 ([72] ++ [0xD800]) = .error () ∧
    parseUTF8 [0xC2, 0x41] 0 1 = .error () ∧
    parseUTF8 [0xF8, 0x80, 0x80, 0x80] 0 1 = .error () :=
  ⟨by decide,
   utf8_roundtrip_amended.1 _ (by decide),
   utf8_roundtrip_amended.2.1 [72] 0xD800 (by decide) (by decide) (by decide),
   utf8_roundtrip_amended.2.2.1 0xC2 0x41 [] 1 (by decide) (by decide) (by decide),
   utf8_roundtrip_amended.2.2.2 0xF8 0x80 0x80 0x80 [] 1 (by decide) (by decide)
     (by decide) (by decide) (by decide)⟩

end Ador
